import Mathlib

/-!
# Verification of the LLM-research-assistant output pipeline

Shallow embedding of the repository's output normalization and schema-repair
pipeline (`app/agent.py`, `app/tools/json_validate.py`) together with proofs
about the frozen specification claims.

JSON-like Python values are modelled by `JValue`; Python dicts are modelled as
insertion-ordered association lists (`JObj`).  Python `None` is `JValue.null`,
so `dict.get(k)` (which yields `None` both for an absent key and for a stored
`None`) is modelled by `pyGet`.  Python floats are modelled as rationals: every
float literal appearing in the claims (`2020.0`, `-1`) is exactly representable,
and the code only compares floats with `0` and truncates them to `int`.
-/

set_option maxHeartbeats 1000000

namespace ResearchAssistant

/-- A JSON-like Python value, as produced by `json.loads` in `llm_json`. -/
inductive JValue where
  | null
  | bool (b : Bool)
  | int (n : Int)
  | float (q : Rat)
  | str (s : String)
  | arr (elems : List JValue)
  | obj (fields : List (String × JValue))
  deriving Repr

mutual

/-- Structural (hence decidable) equality of `JValue`, matching Python `==` on
JSON-like values up to Python's cross-type numeric equalities
(`2020 == 2020.0`, `True == 1`), which never arise in the claims. -/
def decEqJ : (a b : JValue) → Decidable (a = b)
  | .null, .null => isTrue rfl
  | .bool a, .bool b =>
      if h : a = b then isTrue (by rw [h]) else isFalse (fun hh => h (by cases hh; rfl))
  | .int a, .int b =>
      if h : a = b then isTrue (by rw [h]) else isFalse (fun hh => h (by cases hh; rfl))
  | .float a, .float b =>
      if h : a = b then isTrue (by rw [h]) else isFalse (fun hh => h (by cases hh; rfl))
  | .str a, .str b =>
      if h : a = b then isTrue (by rw [h]) else isFalse (fun hh => h (by cases hh; rfl))
  | .arr a, .arr b =>
      match decEqJList a b with
      | isTrue h => isTrue (by rw [h])
      | isFalse h => isFalse (fun hh => h (by cases hh; rfl))
  | .obj a, .obj b =>
      match decEqJFields a b with
      | isTrue h => isTrue (by rw [h])
      | isFalse h => isFalse (fun hh => h (by cases hh; rfl))
  | .null, .bool _ => isFalse (fun h => nomatch h)
  | .null, .int _ => isFalse (fun h => nomatch h)
  | .null, .float _ => isFalse (fun h => nomatch h)
  | .null, .str _ => isFalse (fun h => nomatch h)
  | .null, .arr _ => isFalse (fun h => nomatch h)
  | .null, .obj _ => isFalse (fun h => nomatch h)
  | .bool _, .null => isFalse (fun h => nomatch h)
  | .bool _, .int _ => isFalse (fun h => nomatch h)
  | .bool _, .float _ => isFalse (fun h => nomatch h)
  | .bool _, .str _ => isFalse (fun h => nomatch h)
  | .bool _, .arr _ => isFalse (fun h => nomatch h)
  | .bool _, .obj _ => isFalse (fun h => nomatch h)
  | .int _, .null => isFalse (fun h => nomatch h)
  | .int _, .bool _ => isFalse (fun h => nomatch h)
  | .int _, .float _ => isFalse (fun h => nomatch h)
  | .int _, .str _ => isFalse (fun h => nomatch h)
  | .int _, .arr _ => isFalse (fun h => nomatch h)
  | .int _, .obj _ => isFalse (fun h => nomatch h)
  | .float _, .null => isFalse (fun h => nomatch h)
  | .float _, .bool _ => isFalse (fun h => nomatch h)
  | .float _, .int _ => isFalse (fun h => nomatch h)
  | .float _, .str _ => isFalse (fun h => nomatch h)
  | .float _, .arr _ => isFalse (fun h => nomatch h)
  | .float _, .obj _ => isFalse (fun h => nomatch h)
  | .str _, .null => isFalse (fun h => nomatch h)
  | .str _, .bool _ => isFalse (fun h => nomatch h)
  | .str _, .int _ => isFalse (fun h => nomatch h)
  | .str _, .float _ => isFalse (fun h => nomatch h)
  | .str _, .arr _ => isFalse (fun h => nomatch h)
  | .str _, .obj _ => isFalse (fun h => nomatch h)
  | .arr _, .null => isFalse (fun h => nomatch h)
  | .arr _, .bool _ => isFalse (fun h => nomatch h)
  | .arr _, .int _ => isFalse (fun h => nomatch h)
  | .arr _, .float _ => isFalse (fun h => nomatch h)
  | .arr _, .str _ => isFalse (fun h => nomatch h)
  | .arr _, .obj _ => isFalse (fun h => nomatch h)
  | .obj _, .null => isFalse (fun h => nomatch h)
  | .obj _, .bool _ => isFalse (fun h => nomatch h)
  | .obj _, .int _ => isFalse (fun h => nomatch h)
  | .obj _, .float _ => isFalse (fun h => nomatch h)
  | .obj _, .str _ => isFalse (fun h => nomatch h)
  | .obj _, .arr _ => isFalse (fun h => nomatch h)

def decEqJList : (a b : List JValue) → Decidable (a = b)
  | [], [] => isTrue rfl
  | [], _ :: _ => isFalse (fun h => nomatch h)
  | _ :: _, [] => isFalse (fun h => nomatch h)
  | x :: xs, y :: ys =>
      match decEqJ x y, decEqJList xs ys with
      | isTrue h1, isTrue h2 => isTrue (by rw [h1, h2])
      | isFalse h1, _ => isFalse (fun hh => h1 (by cases hh; rfl))
      | _, isFalse h2 => isFalse (fun hh => h2 (by cases hh; rfl))

def decEqJFields : (a b : List (String × JValue)) → Decidable (a = b)
  | [], [] => isTrue rfl
  | [], _ :: _ => isFalse (fun h => nomatch h)
  | _ :: _, [] => isFalse (fun h => nomatch h)
  | (k1, v1) :: xs, (k2, v2) :: ys =>
      if hk : k1 = k2 then
        match decEqJ v1 v2, decEqJFields xs ys with
        | isTrue h1, isTrue h2 => isTrue (by rw [hk, h1, h2])
        | isFalse h1, _ => isFalse (fun hh => h1 (by cases hh; rfl))
        | _, isFalse h2 => isFalse (fun hh => h2 (by cases hh; rfl))
      else isFalse (fun hh => hk (by cases hh; rfl))

end

instance : DecidableEq JValue := decEqJ

/-- A Python dict with string keys: an insertion-ordered association list. -/
abbrev JObj := List (String × JValue)

/-- First value stored under key `k`, if any (Python `k in d` / `d[k]`). -/
def objGet (o : JObj) (k : String) : Option JValue :=
  match o with
  | [] => none
  | (k', v) :: rest => if k' = k then some v else objGet rest k

/-- Python `k in d`. -/
def objMem (o : JObj) (k : String) : Bool :=
  (objGet o k).isSome

/-- Python `d[k] = v`: replace the value in place if the key exists
(keeping its position), otherwise append the pair at the end. -/
def objSet (o : JObj) (k : String) (v : JValue) : JObj :=
  match o with
  | [] => [(k, v)]
  | (k', v') :: rest => if k' = k then (k', v) :: rest else (k', v') :: objSet rest k v

/-- Python `d.setdefault(k, v)` (as a statement: the updated dict). -/
def objSetdefault (o : JObj) (k : String) (v : JValue) : JObj :=
  if objMem o k then o else o ++ [(k, v)]

/-- Python `d.get(k)`: `None` both when the key is absent and when the stored
value is `None`. -/
def pyGet (o : JObj) (k : String) : JValue :=
  (objGet o k).getD .null

/-- Python `d.get(k, default)`: the stored value (possibly `None`) when the key
is present, otherwise the default. -/
def pyGetD (o : JObj) (k : String) (d : JValue) : JValue :=
  (objGet o k).getD d

/-- View a value as a dict, with a fallback for impossible cases. -/
def asObjD (v : JValue) : JObj :=
  match v with
  | .obj fs => fs
  | _ => []

/-- View a value as a list, with a fallback for impossible cases. -/
def asArrD (v : JValue) : List JValue :=
  match v with
  | .arr xs => xs
  | _ => []

/-- Python `isinstance(v, str)`. -/
def isStr : JValue → Bool
  | .str _ => true
  | _ => false

/-- Python `isinstance(v, dict)`. -/
def isObj : JValue → Bool
  | .obj _ => true
  | _ => false

/-- Python `isinstance(v, list)`. -/
def isArr : JValue → Bool
  | .arr _ => true
  | _ => false

/-- Python truthiness of a JSON-like value (`bool(v)`). -/
def pyTruthy : JValue → Bool
  | .null => false
  | .bool b => b
  | .int n => n != 0
  | .float q => q != 0
  | .str s => !s.isEmpty
  | .arr xs => !xs.isEmpty
  | .obj fs => !fs.isEmpty

/-- Python `a or b` on JSON-like values. -/
def pyOr (a b : JValue) : JValue :=
  if pyTruthy a then a else b

/-- `_force_dict` (agent.py line 56): return the dict, or `{}` if the value is
not a dict. -/
def forceDict (v : JValue) : JObj :=
  match v with
  | .obj fs => fs
  | _ => []

/-- The `setdefault` fills applied to a present `input` dict
(agent.py lines 82–86). -/
def inputFill (inp : JObj) (mode topic pdfName : String) : JObj :=
  if mode = "topic" then
    objSetdefault (objSetdefault inp "mode" (.str mode)) "topic" (.str topic)
  else
    objSetdefault (objSetdefault inp "mode" (.str mode)) "pdf_name" (.str pdfName)

/-- The `input`-must-be-dict block of `_ensure_output_hardened`
(agent.py lines 74–86). -/
def hardenInput (out : JObj) (mode topic pdfName : String) : JObj :=
  match objGet out "input" with
  | some (.obj inp) => objSet out "input" (.obj (inputFill inp mode topic pdfName))
  | _ =>
      if mode = "topic" then
        objSet out "input" (.obj [("mode", .str "topic"), ("topic", .str topic)])
      else
        objSet out "input" (.obj [("mode", .str "pdf"), ("pdf_name", .str pdfName)])

/-- `if not isinstance(out.get("quality"), dict): out["quality"] = {}`
(agent.py line 89, also line 274 and lines 335–336). -/
def qualityToDict (out : JObj) : JObj :=
  match objGet out "quality" with
  | some (.obj _) => out
  | _ => objSet out "quality" (.obj [])

/-- `quality.setdefault("self_checks", [])` followed by the reset-if-not-list
check (agent.py lines 91–93, also lines 276–278). -/
def selfChecksFix (q : JObj) : JObj :=
  match objGet (objSetdefault q "self_checks" (.arr [])) "self_checks" with
  | some (.arr _) => objSetdefault q "self_checks" (.arr [])
  | _ => objSet (objSetdefault q "self_checks" (.arr [])) "self_checks" (.arr [])

/-- The `quality`-must-be-dict block of `_ensure_output_hardened`
(agent.py lines 88–93); the nested-dict mutation is modelled by re-storing the
fixed `quality` dict. -/
def hardenQuality (out : JObj) : JObj :=
  objSet (qualityToDict out) "quality"
    (.obj (selfChecksFix (asObjD (pyGet (qualityToDict out) "quality"))))

/--
`_ensure_output_hardened` (agent.py lines 60–95): defensive normalization.
Forces the output to a dict, force-sets `trace_id`, ensures `input` is a dict
carrying `mode` and the mode-specific identifying field (via `setdefault`,
never overwriting), and ensures `quality` is a dict whose `self_checks` is a
list.
-/
def ensureOutputHardened (raw : JValue) (traceId mode topic pdfName : String) : JObj :=
  hardenQuality
    (hardenInput (objSet (forceDict raw) "trace_id" (.str traceId)) mode topic pdfName)

/-- Pad a list on the right with `p` until it has length `n`
(the Python `while len(fixed) < n: fixed.append(p)` loop). -/
def padTo (xs : List α) (n : Nat) (p : α) : List α :=
  xs ++ List.replicate (n - xs.length) p

/--
Promotion of one field from `input.*` to the top level (agent.py lines
111–117).  The source reads `inp = out.get("input")` once; since no promotion
writes the `input` key, re-reading it per field is equivalent.
-/
def promoteField (o : JObj) (k : String) : JObj :=
  match objGet o "input" with
  | some (.obj inp) =>
      if !objMem o k && objMem inp k then objSet o k (pyGet inp k) else o
  | _ => o

/--
Section 1 of `_coerce_to_schema_shape` (agent.py lines 109–117): promote
`reproduction_checklist` / `action_items` / `related_works` accidentally placed
under `input.*` to the top level when absent there.
-/
def coercePromote (out : JObj) : JObj :=
  promoteField (promoteField (promoteField out "reproduction_checklist") "action_items")
    "related_works"

/-- `{"action": s, "priority": "medium"}` built from a string list entry
(agent.py line 128; `s` is the list element, always a string there). -/
def strToActionItem (s : JValue) : JValue :=
  .obj [("action", s), ("priority", .str "medium")]

/-- The action-item pad entry (agent.py lines 130 and 146). -/
def padActionItem : JValue :=
  .obj [("action", .str "Define next action item"), ("priority", .str "low")]

/-- Python `s.lower()`, per-character (ASCII-faithful; stated over the
character list so that it evaluates in the kernel). -/
def pyLower (s : String) : String :=
  ⟨s.data.map Char.toLower⟩

/--
`str(item.get("priority", "medium")).lower()` followed by the enum check
(agent.py lines 140–142).  For a non-string JSON value, Python's `str()` never
produces a member of `{"high","medium","low"}` after lower-casing (`None` gives
`"none"`, `True` gives `"true"`, numbers give digit strings, lists and dicts
give bracketed text), so those cases collapse to the `"medium"` default.
-/
def coercePriority (v : JValue) : String :=
  match v with
  | .str s =>
      if pyLower s = "high" ∨ pyLower s = "medium" ∨ pyLower s = "low" then pyLower s
      else "medium"
  | _ => "medium"

/-- Normalization of one action-item dict (agent.py lines 137–144). -/
def normalizeActionItem (x : JValue) : JValue :=
  match x with
  | .obj item =>
      let item := objSetdefault item "action" (.str "Define next action item")
      let pr := coercePriority (pyGetD item "priority" (.str "medium"))
      .obj (objSet item "priority" (.str pr))
  | v => v

/-- `if isinstance(ai, str): ai = [ai]; out["action_items"] = ai`
(agent.py lines 122–124).  After this statement the local `ai` always equals
`out["action_items"]` again, so the following statements are modelled as
functions that re-read the field. -/
def aiWrapStr (out : JObj) : JObj :=
  match pyGet out "action_items" with
  | .str s => objSet out "action_items" (.arr [.str s])
  | _ => out

/-- Convert `list[str] -> list[dict]` for action items (agent.py lines 127–131). -/
def aiStrListToDicts (out : JObj) : JObj :=
  match pyGet out "action_items" with
  | .arr xs =>
      if xs.isEmpty || xs.all isStr then
        let fixed := (xs.take 5).map strToActionItem
        objSet out "action_items" (.arr ((padTo fixed 5 padActionItem).take 5))
      else out
  | _ => out

/-- Normalize `list[dict]` and enforce exactly 5 (agent.py lines 134–147). -/
def aiNormalizeDicts (out : JObj) : JObj :=
  match pyGet out "action_items" with
  | .arr ys =>
      if ys.all isObj then
        let fixed2 := (ys.take 5).map normalizeActionItem
        objSet out "action_items" (.arr ((padTo fixed2 5 padActionItem).take 5))
      else out
  | _ => out

/--
Section 2 of `_coerce_to_schema_shape` (agent.py lines 119–147): wrap a bare
string, convert a list of strings into dicts, then normalize a list of dicts
and enforce exactly 5 entries.  A value of any other shape (absent, number,
dict, mixed list, ...) is left untouched.
-/
def coerceActionItems (out : JObj) : JObj :=
  aiNormalizeDicts (aiStrListToDicts (aiWrapStr out))

/-- `{"task": s, "why": "Required to reproduce results"}` from a string entry
(agent.py line 158). -/
def strToChecklistItem (s : JValue) : JValue :=
  .obj [("task", s), ("why", .str "Required to reproduce results")]

/-- The checklist pad entry (agent.py lines 160 and 173). -/
def padChecklistItem : JValue :=
  .obj [("task", .str "Add missing reproduction step"),
        ("why", .str "Required to reproduce results")]

/-- Normalization of one checklist dict (agent.py lines 167–171). -/
def normalizeChecklistItem (x : JValue) : JValue :=
  match x with
  | .obj item =>
      let item := objSetdefault item "task" (.str "Add reproduction step")
      .obj (objSetdefault item "why" (.str "Required to reproduce results"))
  | v => v

/-- `if isinstance(rc, str): rc = [rc]; out[...] = rc` (agent.py lines 152–154). -/
def rcWrapStr (out : JObj) : JObj :=
  match pyGet out "reproduction_checklist" with
  | .str s => objSet out "reproduction_checklist" (.arr [.str s])
  | _ => out

/-- Convert `list[str] -> list[dict]` for the checklist (agent.py lines 157–161). -/
def rcStrListToDicts (out : JObj) : JObj :=
  match pyGet out "reproduction_checklist" with
  | .arr xs =>
      if xs.isEmpty || xs.all isStr then
        let fixed := (xs.take 10).map strToChecklistItem
        objSet out "reproduction_checklist" (.arr ((padTo fixed 5 padChecklistItem).take 10))
      else out
  | _ => out

/-- Normalize `list[dict]` and enforce 5–10 (agent.py lines 164–174). -/
def rcNormalizeDicts (out : JObj) : JObj :=
  match pyGet out "reproduction_checklist" with
  | .arr ys =>
      if ys.all isObj then
        let fixed2 := (ys.take 10).map normalizeChecklistItem
        objSet out "reproduction_checklist" (.arr ((padTo fixed2 5 padChecklistItem).take 10))
      else out
  | _ => out

/--
Section 3 of `_coerce_to_schema_shape` (agent.py lines 149–174): the checklist
mirror of section 2, with cardinality bounds 5–10.
-/
def coerceChecklist (out : JObj) : JObj :=
  rcNormalizeDicts (rcStrListToDicts (rcWrapStr out))

/-- Truncation of a rational toward zero, matching Python `int()` on a float. -/
def ratTruncToInt (q : Rat) : Int :=
  q.num.tdiv q.den

/-- Python `s.isdigit()` restricted to ASCII digit strings, the only strings
exercised by this code path (stated over the character list so that it
evaluates in the kernel). -/
def pyIsDigit (s : String) : Bool :=
  !s.data.isEmpty && s.data.all Char.isDigit

/-- Python `int(s)` on a digit-only string. -/
def digitStrToInt (s : String) : Int :=
  Int.ofNat (s.data.foldl (fun n c => n * 10 + (c.toNat - 48)) 0)

/--
The in-place year parse of `_coerce_to_schema_shape` (agent.py lines 190–196):
a non-negative int/float is truncated to int, a digit-only string is parsed,
anything else becomes 0.  Python `bool` is a subtype of `int`
(`int(True) = 1 ≥ 0`), reflected in the `bool` case.
-/
def coerceRelatedYear (y : JValue) : JValue :=
  match y with
  | .int n => if n ≥ 0 then .int n else .int 0
  | .float q => if q ≥ 0 then .int (ratTruncToInt q) else .int 0
  | .bool b => .int (if b then 1 else 0)
  | .str s => if pyIsDigit s then .int (digitStrToInt s) else .int 0
  | _ => .int 0

/--
The year parse of the candidate-paper derivation (agent.py lines 223–229).
Unlike `coerceRelatedYear` it has NO non-negativity guard: any int/float is
truncated to int, sign included.
-/
def candidateYear (y : JValue) : JValue :=
  match y with
  | .int n => .int n
  | .float q => .int (ratTruncToInt q)
  | .bool b => .int (if b then 1 else 0)
  | .str s => if pyIsDigit s then .int (digitStrToInt s) else .int 0
  | _ => .int 0

/-- Normalization of one related-work dict (agent.py lines 186–204). -/
def normalizeRelatedWork (x : JValue) : JValue :=
  match x with
  | .obj item =>
      let item := objSetdefault item "title" (.str "Unknown title")
      let y := pyGetD item "year" (.int 0)
      let item := objSet item "year" (coerceRelatedYear y)
      let item := objSetdefault item "url" (.str "")
      let item := objSetdefault item "key_contribution"
        (pyOr (pyGetD item "relevance_reason" (.str "")) (.str "Key contribution not provided."))
      .obj (objSetdefault item "relevance_reason" (.str ""))
  | v => v

/-- A related-work entry derived from one `input.candidate_papers` dict
(agent.py lines 231–239). -/
def candidateToRelatedWork (p : JObj) : JValue :=
  .obj [("title", pyGetD p "title" (.str "Unknown title")),
        ("year", candidateYear (pyGetD p "year" (.int 0))),
        ("url", pyGetD p "url" (.str "")),
        ("key_contribution", pyOr (pyGet p "key_contribution") (.str "Key contribution not provided.")),
        ("relevance_reason", pyGetD p "relevance_reason" (.str ""))]

/-- The fixed sentinel related-work entry (agent.py lines 252–260). -/
def sentinelRelatedWork : JValue :=
  .obj [("title", .str "Additional related work needed"),
        ("year", .int 0),
        ("url", .str ""),
        ("key_contribution", .str "Not provided."),
        ("relevance_reason", .str "")]

/-- The entry built from a bare string `related_works` (agent.py line 180). -/
def strToRelatedWork (s : String) : JValue :=
  .obj [("title", .str s), ("year", .int 0), ("url", .str ""),
        ("key_contribution", .str "Key contribution not provided.")]

/-- `if isinstance(rw, str): ...` (agent.py lines 179–181). -/
def rwWrapStr (out : JObj) : JObj :=
  match pyGet out "related_works" with
  | .str s => objSet out "related_works" (.arr [strToRelatedWork s])
  | _ => out

/-- The `fixed_rw` list of agent.py lines 184–204: normalize the dict entries
among the first five, dropping non-dicts. -/
def rwFixedList (xs : List JValue) : List JValue :=
  ((xs.take 5).filter isObj).map normalizeRelatedWork

/-- Normalize the first five dict entries, dropping non-dicts; keep the field
unchanged when no dict is found among them (agent.py lines 183–206). -/
def rwNormalizeList (out : JObj) : JObj :=
  match pyGet out "related_works" with
  | .arr xs =>
      if !(rwFixedList xs).isEmpty then
        objSet out "related_works" (.arr ((rwFixedList xs).take 5))
      else out
  | _ => out

/-- The `cand` local of agent.py lines 214–217: `input.candidate_papers` when
`input` is a dict, else `None`. -/
def candPapersOf (out : JObj) : JValue :=
  match objGet out "input" with
  | some (.obj inp2) => pyGet inp2 "candidate_papers"
  | _ => JValue.null

/-- The derived `fixed_rw` list of agent.py lines 220–239. -/
def rwDerivedList (cs : List JValue) : List JValue :=
  ((cs.take 5).filter isObj).map (fun p => candidateToRelatedWork (asObjD p))

/-- If missing / non-list / empty, derive entries from `input.candidate_papers`
(agent.py lines 208–240). -/
def rwDeriveFromCandidates (out : JObj) : JObj :=
  if !objMem out "related_works" || !isArr (pyGet out "related_works")
      || (asArrD (pyGetD out "related_works" (.arr []))).isEmpty then
    match candPapersOf out with
    | .arr cs =>
        if !cs.isEmpty then
          objSet out "related_works" (.arr ((rwDerivedList cs).take 5))
        else out
    | _ => out
  else out

/-- Final cardinality fix: drop non-dicts, truncate to 5, pad to 3 with the
sentinel (agent.py lines 242–260; the non-list branch first resets the field
to `[]`, then the shared set-and-pad statement overwrites it). -/
def rwFinalFix (out : JObj) : JObj :=
  match pyGet out "related_works" with
  | .arr xs =>
      objSet out "related_works" (.arr (padTo ((xs.filter isObj).take 5) 3 sentinelRelatedWork))
  | _ =>
      objSet (objSet out "related_works" (.arr [])) "related_works"
        (.arr (padTo ((([] : List JValue).filter isObj).take 5) 3 sentinelRelatedWork))

/--
Section 4 of `_coerce_to_schema_shape` (agent.py lines 176–260): wrap a bare
string, normalize the first five dict entries of a list (dropping non-dicts),
derive entries from `input.candidate_papers` when the result is missing or
empty, then drop non-dicts, truncate to 5 and pad with the sentinel to 3.
As in section 2, each statement re-reads `out["related_works"]`, which the
preceding statement kept in sync with its local variable.
-/
def coerceRelatedWorks (out : JObj) : JObj :=
  rwFinalFix (rwDeriveFromCandidates (rwNormalizeList (rwWrapStr out)))

/-- Section 5 of `_coerce_to_schema_shape` (agent.py lines 262–264): keep
`input` consistent. -/
def coerceInputConsistent (out : JObj) (mode : String) : JObj :=
  match objGet out "input" with
  | some (.obj _) => out
  | _ => objSet out "input" (.obj [("mode", .str mode)])

/--
`_coerce_to_schema_shape` (agent.py lines 98–266): the five sections applied in
source order.
-/
def coerceToSchemaShape (out : JObj) (mode : String) : JObj :=
  coerceInputConsistent
    (coerceRelatedWorks (coerceChecklist (coerceActionItems (coercePromote out)))) mode

/--
`_ensure_quality_required_fields_before_validate` (agent.py lines 269–279):
make sure `quality.self_checks` (a list) and `quality.schema_valid` exist
before `validate_json` is called.
-/
def ensureQualityRequiredFieldsBeforeValidate (out : JObj) : JObj :=
  objSet (qualityToDict out) "quality"
    (.obj (objSetdefault (selfChecksFix (asObjD (pyGet (qualityToDict out) "quality")))
      "schema_valid" (.bool false)))

/-- One element of a `jsonschema` error path (`e.path` is a deque of property
names and array indices). -/
inductive PathElem where
  | idx (n : Int)
  | key (s : String)
  deriving DecidableEq, Repr

/-- `str(x)` for a path element. -/
def pathElemStr : PathElem → String
  | .idx n => toString n
  | .key s => s

/--
Comparison of path elements.  Python compares ints with ints and strings with
strings; comparing an int with a string would raise `TypeError`, but two
`jsonschema` error paths sharing a prefix index into the same container, so
their first differing elements always have the same type.  The model totalizes
the cross-type case (indices before keys).
-/
def pathElemLe : PathElem → PathElem → Bool
  | .idx m, .idx n => decide (m ≤ n)
  | .idx _, .key _ => true
  | .key _, .idx _ => false
  | .key s, .key t => decide (s ≤ t)

/-- Lexicographic comparison of error paths, as used by
`sorted(..., key=lambda e: e.path)`. -/
def pathLe : List PathElem → List PathElem → Bool
  | [], _ => true
  | _ :: _, [] => false
  | a :: as, b :: bs => if a = b then pathLe as bs else pathElemLe a b

/-- One `jsonschema` validation error: a structural path plus a message.
`Draft202012Validator(schema).iter_errors(payload)` is the external library
collaborator; it enters the model as the function parameter `iterErrors`. -/
structure SchemaError where
  path : List PathElem
  message : String
  deriving DecidableEq, Repr

/-- The dotted-path message format of `validate_json`
(json_validate.py lines 9–10). -/
def formatError (e : SchemaError) : String :=
  (if e.path.isEmpty then "<root>"
   else String.intercalate "." (e.path.map pathElemStr)) ++ ": " ++ e.message

/-- The `errors` local of `validate_json` (json_validate.py line 6): all
errors, sorted by structural path.  Python `sorted` and `List.mergeSort` are
both stable sorts, so they agree. -/
def sortedErrors (iterErrors : JValue → List SchemaError) (payload : JValue) :
    List SchemaError :=
  (iterErrors payload).mergeSort (fun a b => pathLe a.path b.path)

/--
`validate_json` (json_validate.py lines 4–11), parametrized by the external
`iter_errors`: sort all errors by structural path, format the first 20, and
report success iff there are no errors at all.
-/
def validate_json (iterErrors : JValue → List SchemaError) (payload : JValue) :
    Bool × List String :=
  ((sortedErrors iterErrors payload).length == 0,
   ((sortedErrors iterErrors payload).take 20).map formatError)

/-- Python hashability of a JSON-like value: lists and dicts are unhashable. -/
def pyHashable : JValue → Bool
  | .arr _ => false
  | .obj _ => false
  | _ => true

/--
`list(set(xs))` (agent.py lines 315 and 381): `none` when some element is
unhashable, in which case Python raises `TypeError`.  Python's set iteration
order is arbitrary (string hashing is randomized per process); the model picks
the canonical duplicate-free list `xs.dedup`, and every theorem about the
result is stated order-insensitively (membership and `Nodup`).
-/
def pyListSet (xs : List JValue) : Option (List JValue) :=
  if xs.all pyHashable then some xs.dedup else none

/-- The `quality` dict of a document (a dict whenever the document went through
hardening or `ensureQualityRequiredFieldsBeforeValidate`). -/
def qualityOf (out : JObj) : JObj :=
  asObjD (pyGet out "quality")

/-- The `quality.self_checks` list of a document. -/
def selfChecksOf (out : JObj) : List JValue :=
  asArrD (pyGet (qualityOf out) "self_checks")

/-- The document an orchestrator attempt passes to `validate_json`
(agent.py lines 306–312 / 372–378): hardening, then coercion, then the
required-quality-fields pass.  Irreducible so that symbolic reasoning about
the orchestrator never unfolds the whole pipeline. -/
@[irreducible] def preValidateDoc (raw : JValue) (traceId mode topic pdfName : String) : JObj :=
  ensureQualityRequiredFieldsBeforeValidate
    (coerceToSchemaShape (ensureOutputHardened raw traceId mode topic pdfName) mode)

/-- `out["quality"]["schema_valid"] = ok` (agent.py line 314 / 380), with the
nested-dict mutation modelled by re-storing `quality`. -/
def postValidateDoc (out : JObj) (ok : Bool) : JObj :=
  objSet out "quality" (.obj (objSet (qualityOf out) "schema_valid" (.bool ok)))

/-- `out["quality"]["self_checks"] = sc` (agent.py line 315 / 381). -/
def setSelfChecksDoc (out : JObj) (sc : List JValue) : JObj :=
  objSet out "quality" (.obj (objSet (qualityOf out) "self_checks" (.arr sc)))

/-- The `(ok, errs)` pair produced by one attempt's `validate_json` call
(agent.py line 312 / 378). -/
def attemptValidated (iterErrors : JValue → List SchemaError) (raw : JValue)
    (traceId mode topic pdfName : String) : Bool × List String :=
  validate_json iterErrors (.obj (preValidateDoc raw traceId mode topic pdfName))

/-- The attempt's document right after `quality.schema_valid` is overwritten
(agent.py line 314 / 380). -/
def attemptDocValidated (iterErrors : JValue → List SchemaError) (raw : JValue)
    (traceId mode topic pdfName : String) : JObj :=
  postValidateDoc (preValidateDoc raw traceId mode topic pdfName)
    (attemptValidated iterErrors raw traceId mode topic pdfName).1

/--
One orchestrator attempt after the generation call (agent.py lines 306–315 /
372–381): normalize, validate, overwrite `quality.schema_valid` with the
result, then replace `quality.self_checks` with `list(set(self_checks +
["json_schema_v1"]))`.  `none` models the `TypeError` Python raises when
`self_checks` holds an unhashable element.
-/
def attemptStep (iterErrors : JValue → List SchemaError) (raw : JValue)
    (traceId mode topic pdfName : String) : Option (JObj × Bool × List String) :=
  match pyListSet (selfChecksOf (attemptDocValidated iterErrors raw traceId mode topic pdfName)
      ++ [.str "json_schema_v1"]) with
  | none => none
  | some sc =>
      some (setSelfChecksDoc (attemptDocValidated iterErrors raw traceId mode topic pdfName) sc,
        (attemptValidated iterErrors raw traceId mode topic pdfName).1,
        (attemptValidated iterErrors raw traceId mode topic pdfName).2)

/-- The retry-prompt augmentation (agent.py lines 327–332 / 393–398). -/
def validationFeedback (lastErrors : List String) : String :=
  "\n\nVALIDATION ERRORS:\n" ++ String.intercalate "\n" (lastErrors.take 12)
    ++ "\nFix the JSON to satisfy the schema."

/-- The `quality.notes` summary string of the best-effort return
(agent.py line 339 / 405). -/
def retriesNote (lastErrors : List String) : String :=
  "Schema validation failed after retries: " ++ String.intercalate "; " (lastErrors.take 8)

/-- The best-effort return block (agent.py lines 334–339 / 400–405). -/
def bestEffortReturn (out : JObj) (lastErrors : List String) : JObj :=
  objSet (qualityToDict out) "quality"
    (.obj (objSet
      (objSet (objSetdefault (asObjD (pyGet (qualityToDict out) "quality"))
        "self_checks" (.arr []))
        "schema_valid" (.bool false))
      "notes" (.str (retriesNote lastErrors))))

/--
The `for attempt in range(1, 3)` loop shared by both orchestrators
(agent.py lines 300–341 / 366–407).  `llm` is the external generation
collaborator (attempt number and prompt in, loosely-typed JSON value out);
tracing is an external append-only sink with no effect on the result and is
not modelled.  Returns the document together with the number of generation
calls made, or `none` for the `TypeError` case of `attemptStep`.
-/
def agentLoop (iterErrors : JValue → List SchemaError) (llm : Nat → String → JValue)
    (traceId mode topic pdfName : String) :
    List Nat → String → List String → JObj → Option (JObj × Nat)
  | [], _, lastErrors, out => some (bestEffortReturn out lastErrors, 0)
  | attempt :: rest, prompt, _, _ =>
      match attemptStep iterErrors (llm attempt prompt) traceId mode topic pdfName with
      | none => none
      | some (out, ok, errs) =>
          if ok then some (out, 1)
          else
            match agentLoop iterErrors llm traceId mode topic pdfName rest
                (prompt ++ validationFeedback errs) errs out with
            | none => none
            | some (doc, n) => some (doc, n + 1)

/-- One candidate paper as produced by the `arxiv_search` collaborator
(spec §6: an ordered sequence of title/year/url/abstract records). -/
structure Paper where
  title : String
  year : Int
  url : String
  abstract : String

/-- One candidate block of the topic prompt (agent.py lines 31–37). -/
def paperCtx (p : Paper) : String :=
  "- Title: " ++ p.title ++ "\n  Year: " ++ toString p.year ++ "\n  URL: " ++ p.url
    ++ "\n  Abstract: " ++ p.abstract.take 1200

/-- `_build_topic_user_prompt` (agent.py lines 29–53); the `trace_id` argument
is accepted and unused, as in the source. -/
def buildTopicUserPrompt (topic : String) (papers : List Paper) (_traceId : String) : String :=
  let joined := String.intercalate "\n\n" (papers.map paperCtx)
  "TASK: Given the topic, produce 3-5 related works (from the provided candidates), a reproduction checklist, and exactly 5 action items.\n\nTOPIC: "
    ++ topic
    ++ "\n\nCANDIDATE PAPERS (arXiv):\n"
    ++ joined
    ++ "\n\nRules:\n- Choose the 3-5 MOST RELEVANT papers to the TOPIC from the candidates.\n- Rank the selected papers by relevance (most relevant first).\n- Each paper: title, year, url, key_contribution (1-2 sentences), relevance_reason (optional).\n- Provide a reproduction_checklist of 5-10 items.\n- Provide exactly 5 action_items with priority.\n"

/-- The pdf-mode prompt (agent.py lines 349–361). -/
def buildPdfUserPrompt (pdfText : String) : String :=
  "TASK: You are given extracted text of a paper. Produce:\n- related_works: 3-5 (you may infer typical related works categories if exact citations not present; be explicit if uncertain)\n- target_paper: title/main_idea/method + experiment_setup[] with evidence (page, span) when available\n- reproduction_checklist: 5-10\n- action_items: exactly 5\n\nPAPER TEXT (with page tags like [PAGE 1], [PAGE 2]...):\n"
    ++ pdfText.take 180000
    ++ "\n\nRules:\n- For experiment_setup evidence, quote a SHORT span (<= 200 chars) and include page number.\n- Keep claims conservative if the text is unclear.\n"

/-- `run_topic_agent` (agent.py lines 282–341), with the external collaborators
(`arxiv_search` result, generation, validator internals) as parameters. -/
def run_topic_agent (iterErrors : JValue → List SchemaError) (llm : Nat → String → JValue)
    (traceId topic : String) (papers : List Paper) : Option (JObj × Nat) :=
  agentLoop iterErrors llm traceId "topic" topic "" [1, 2]
    (buildTopicUserPrompt topic papers traceId) [] []

/-- `run_pdf_agent` (agent.py lines 344–407). -/
def run_pdf_agent (iterErrors : JValue → List SchemaError) (llm : Nat → String → JValue)
    (traceId pdfName pdfText : String) : Option (JObj × Nat) :=
  agentLoop iterErrors llm traceId "pdf" "" pdfName [1, 2]
    (buildPdfUserPrompt pdfText) [] []

/-! ## Predicates used to state the claims -/

/-- The action-item shapes that section 2 of the coercer converts to a
five-element dict list: a bare string, a list of strings (or an empty list),
or a list of dicts. -/
def aiCoercible : JValue → Bool
  | .str _ => true
  | .arr xs => xs.all isStr || xs.all isObj
  | _ => false

/-- A well-formed coerced action item: a dict with an `action` key and an
in-enum `priority`. -/
def actionItemOk : JValue → Bool
  | .obj item =>
      objMem item "action" &&
        (match objGet item "priority" with
         | some (.str p) => p == "high" || p == "medium" || p == "low"
         | _ => false)
  | _ => false

/-- A related-work entry carrying all four schema-required keys. -/
def rwKeysOk : JValue → Bool
  | .obj item =>
      objMem item "title" && objMem item "year" && objMem item "url"
        && objMem item "key_contribution"
  | _ => false

/-- Excludes the one list shape on which section 4 leaves a dict entry
unnormalized: a list whose first five entries contain no dict while a later
entry is a dict. -/
def rwProviso : JValue → Bool
  | .arr xs => !((xs.take 5).all (fun x => !isObj x) && (xs.drop 5).any isObj)
  | _ => true

/-- The derived year of one candidate paper is non-negative (trivially true
for a non-dict candidate, which the derivation drops). -/
def candYearOk : JValue → Bool
  | .obj pp =>
      match candidateYear (pyGetD pp "year" (.int 0)) with
      | .int n => decide (0 ≤ n)
      | _ => false
  | _ => true

/-- Every entry of `input.candidate_papers` (when present) has a non-negative
derived year. -/
def candsOk (out : JObj) : Bool :=
  match objGet out "input" with
  | some (.obj inp) =>
      match objGet inp "candidate_papers" with
      | some (.arr cs) => cs.all candYearOk
      | _ => true
  | _ => true

/-! ## Association-list lemmas -/

@[simp] theorem objGet_nil (k : String) : objGet [] k = none := rfl

theorem objGet_objSet_self (o : JObj) (k : String) (v : JValue) :
    objGet (objSet o k v) k = some v := by
  induction o with
  | nil => simp [objSet, objGet]
  | cons p rest ih =>
      obtain ⟨k', v'⟩ := p
      by_cases h : k' = k
      · simp [objSet, objGet, h]
      · simp [objSet, objGet, h, ih]

theorem objGet_objSet_ne (o : JObj) (k k' : String) (v : JValue) (h : k' ≠ k) :
    objGet (objSet o k v) k' = objGet o k' := by
  have h2 : ¬ (k = k') := fun hh => h hh.symm
  induction o with
  | nil => simp [objSet, objGet, h2]
  | cons p rest ih =>
      obtain ⟨k1, v1⟩ := p
      by_cases h1 : k1 = k
      · subst h1
        simp [objSet, objGet, h2]
      · simp [objSet, objGet, h1, ih]

theorem objSet_of_objGet_eq (o : JObj) (k : String) (v : JValue)
    (h : objGet o k = some v) : objSet o k v = o := by
  induction o with
  | nil => simp [objGet] at h
  | cons p rest ih =>
      obtain ⟨k1, v1⟩ := p
      by_cases h1 : k1 = k
      · subst h1
        simp [objGet] at h
        simp [objSet, h]
      · simp only [objGet, h1, if_false] at h
        simp [objSet, h1, ih h]

theorem objMem_objSet_self (o : JObj) (k : String) (v : JValue) :
    objMem (objSet o k v) k = true := by
  simp [objMem, objGet_objSet_self]

theorem objMem_objSet_ne (o : JObj) (k k' : String) (v : JValue) (h : k' ≠ k) :
    objMem (objSet o k v) k' = objMem o k' := by
  simp [objMem, objGet_objSet_ne o k k' v h]

theorem objGet_append_single_ne (o : JObj) (k k' : String) (v : JValue) (h : k' ≠ k) :
    objGet (o ++ [(k, v)]) k' = objGet o k' := by
  have h2 : ¬ (k = k') := fun hh => h hh.symm
  induction o with
  | nil => simp [objGet, h2]
  | cons p rest ih =>
      obtain ⟨k1, v1⟩ := p
      by_cases h1 : k1 = k'
      · simp [objGet, h1]
      · simp [objGet, h1, ih]

theorem objGet_append_single_self (o : JObj) (k : String) (v : JValue)
    (h : objMem o k = false) : objGet (o ++ [(k, v)]) k = some v := by
  induction o with
  | nil => simp [objGet]
  | cons p rest ih =>
      obtain ⟨k1, v1⟩ := p
      by_cases h1 : k1 = k
      · simp [objMem, objGet, h1] at h
      · simp only [objMem, objGet, h1, if_false] at h
        simp [objGet, h1, ih h]

theorem objGet_objSetdefault_ne (o : JObj) (k k' : String) (v : JValue) (h : k' ≠ k) :
    objGet (objSetdefault o k v) k' = objGet o k' := by
  unfold objSetdefault
  by_cases hm : objMem o k
  · simp [hm]
  · simp only [hm, Bool.false_eq_true, if_false]
    exact objGet_append_single_ne o k k' v h

theorem objSetdefault_of_mem (o : JObj) (k : String) (v : JValue)
    (h : objMem o k = true) : objSetdefault o k v = o := by
  simp [objSetdefault, h]

theorem objGet_objSetdefault_self (o : JObj) (k : String) (v : JValue) :
    objGet (objSetdefault o k v) k =
      some ((objGet o k).getD v) := by
  unfold objSetdefault
  by_cases hm : objMem o k
  · simp only [hm, if_true]
    unfold objMem at hm
    obtain ⟨w, hw⟩ := Option.isSome_iff_exists.mp hm
    simp [hw]
  · simp only [hm, Bool.false_eq_true, if_false]
    have hmf : objMem o k = false := by
      revert hm
      cases objMem o k <;> simp
    rw [objGet_append_single_self o k v hmf]
    unfold objMem at hmf
    cases hg : objGet o k with
    | none => simp
    | some w => rw [hg] at hmf; simp at hmf

theorem objMem_objSetdefault_self (o : JObj) (k : String) (v : JValue) :
    objMem (objSetdefault o k v) k = true := by
  simp [objMem, objGet_objSetdefault_self]

theorem objMem_objSetdefault_ne (o : JObj) (k k' : String) (v : JValue) (h : k' ≠ k) :
    objMem (objSetdefault o k v) k' = objMem o k' := by
  simp [objMem, objGet_objSetdefault_ne o k k' v h]

theorem pyGet_eq_of_objGet (o : JObj) (k : String) (v : JValue)
    (h : objGet o k = some v) : pyGet o k = v := by
  simp [pyGet, h]

theorem objMem_of_objGet (o : JObj) (k : String) (v : JValue)
    (h : objGet o k = some v) : objMem o k = true := by
  simp [objMem, h]

theorem pyGet_objSet_self (o : JObj) (k : String) (v : JValue) :
    pyGet (objSet o k v) k = v := by
  simp [pyGet, objGet_objSet_self]

theorem pyGet_objSet_ne (o : JObj) (k k' : String) (v : JValue) (h : k' ≠ k) :
    pyGet (objSet o k v) k' = pyGet o k' := by
  simp [pyGet, objGet_objSet_ne o k k' v h]

/-! ## Frame lemmas: each coercion section writes only its own key -/

theorem objGet_promoteField_ne (o : JObj) (pk k : String) (h : k ≠ pk) :
    objGet (promoteField o pk) k = objGet o k := by
  unfold promoteField
  split
  · split
    · exact objGet_objSet_ne _ _ _ _ h
    · rfl
  · rfl

theorem objGet_coercePromote_ne (o : JObj) (k : String)
    (h1 : k ≠ "reproduction_checklist") (h2 : k ≠ "action_items")
    (h3 : k ≠ "related_works") :
    objGet (coercePromote o) k = objGet o k := by
  unfold coercePromote
  rw [objGet_promoteField_ne _ _ _ h3, objGet_promoteField_ne _ _ _ h2,
    objGet_promoteField_ne _ _ _ h1]

theorem objGet_aiWrapStr_ne (o : JObj) (k : String) (h : k ≠ "action_items") :
    objGet (aiWrapStr o) k = objGet o k := by
  unfold aiWrapStr
  split
  · exact objGet_objSet_ne _ _ _ _ h
  · rfl

theorem objGet_aiStrListToDicts_ne (o : JObj) (k : String) (h : k ≠ "action_items") :
    objGet (aiStrListToDicts o) k = objGet o k := by
  unfold aiStrListToDicts
  split
  · split
    · exact objGet_objSet_ne _ _ _ _ h
    · rfl
  · rfl

theorem objGet_aiNormalizeDicts_ne (o : JObj) (k : String) (h : k ≠ "action_items") :
    objGet (aiNormalizeDicts o) k = objGet o k := by
  unfold aiNormalizeDicts
  split
  · split
    · exact objGet_objSet_ne _ _ _ _ h
    · rfl
  · rfl

theorem objGet_coerceActionItems_ne (o : JObj) (k : String) (h : k ≠ "action_items") :
    objGet (coerceActionItems o) k = objGet o k := by
  unfold coerceActionItems
  rw [objGet_aiNormalizeDicts_ne _ _ h, objGet_aiStrListToDicts_ne _ _ h,
    objGet_aiWrapStr_ne _ _ h]

theorem objGet_rcWrapStr_ne (o : JObj) (k : String) (h : k ≠ "reproduction_checklist") :
    objGet (rcWrapStr o) k = objGet o k := by
  unfold rcWrapStr
  split
  · exact objGet_objSet_ne _ _ _ _ h
  · rfl

theorem objGet_rcStrListToDicts_ne (o : JObj) (k : String)
    (h : k ≠ "reproduction_checklist") :
    objGet (rcStrListToDicts o) k = objGet o k := by
  unfold rcStrListToDicts
  split
  · split
    · exact objGet_objSet_ne _ _ _ _ h
    · rfl
  · rfl

theorem objGet_rcNormalizeDicts_ne (o : JObj) (k : String)
    (h : k ≠ "reproduction_checklist") :
    objGet (rcNormalizeDicts o) k = objGet o k := by
  unfold rcNormalizeDicts
  split
  · split
    · exact objGet_objSet_ne _ _ _ _ h
    · rfl
  · rfl

theorem objGet_coerceChecklist_ne (o : JObj) (k : String)
    (h : k ≠ "reproduction_checklist") :
    objGet (coerceChecklist o) k = objGet o k := by
  unfold coerceChecklist
  rw [objGet_rcNormalizeDicts_ne _ _ h, objGet_rcStrListToDicts_ne _ _ h,
    objGet_rcWrapStr_ne _ _ h]

theorem objGet_rwWrapStr_ne (o : JObj) (k : String) (h : k ≠ "related_works") :
    objGet (rwWrapStr o) k = objGet o k := by
  unfold rwWrapStr
  split
  · exact objGet_objSet_ne _ _ _ _ h
  · rfl

theorem objGet_rwNormalizeList_ne (o : JObj) (k : String) (h : k ≠ "related_works") :
    objGet (rwNormalizeList o) k = objGet o k := by
  unfold rwNormalizeList
  split
  · split
    · exact objGet_objSet_ne _ _ _ _ h
    · rfl
  · rfl

theorem objGet_rwDeriveFromCandidates_ne (o : JObj) (k : String)
    (h : k ≠ "related_works") :
    objGet (rwDeriveFromCandidates o) k = objGet o k := by
  unfold rwDeriveFromCandidates
  split
  · split
    · split
      · exact objGet_objSet_ne _ _ _ _ h
      · rfl
    · rfl
  · rfl

theorem objGet_rwFinalFix_ne (o : JObj) (k : String) (h : k ≠ "related_works") :
    objGet (rwFinalFix o) k = objGet o k := by
  unfold rwFinalFix
  split
  · exact objGet_objSet_ne _ _ _ _ h
  · rw [objGet_objSet_ne _ _ _ _ h, objGet_objSet_ne _ _ _ _ h]

theorem pyGet_rwFinalFix_self (o : JObj) :
    ∃ ws, objGet (rwFinalFix o) "related_works" = some (.arr ws) := by
  unfold rwFinalFix
  split
  · exact ⟨_, objGet_objSet_self _ _ _⟩
  · exact ⟨_, objGet_objSet_self _ _ _⟩

theorem objGet_coerceRelatedWorks_ne (o : JObj) (k : String) (h : k ≠ "related_works") :
    objGet (coerceRelatedWorks o) k = objGet o k := by
  unfold coerceRelatedWorks
  rw [objGet_rwFinalFix_ne _ _ h, objGet_rwDeriveFromCandidates_ne _ _ h,
    objGet_rwNormalizeList_ne _ _ h, objGet_rwWrapStr_ne _ _ h]

theorem objGet_coerceInputConsistent_ne (o : JObj) (mode : String) (k : String)
    (h : k ≠ "input") :
    objGet (coerceInputConsistent o mode) k = objGet o k := by
  unfold coerceInputConsistent
  split
  · rfl
  · exact objGet_objSet_ne _ _ _ _ h

/-- The final `action_items` value is produced by section 2 applied after
promotion. -/
theorem objGet_coerce_action_items (o : JObj) (mode : String) :
    objGet (coerceToSchemaShape o mode) "action_items"
      = objGet (coerceActionItems (coercePromote o)) "action_items" := by
  unfold coerceToSchemaShape
  rw [objGet_coerceInputConsistent_ne _ _ _ (by decide),
    objGet_coerceRelatedWorks_ne _ _ (by decide),
    objGet_coerceChecklist_ne _ _ (by decide)]

/-- The final `reproduction_checklist` value is produced by section 3. -/
theorem objGet_coerce_checklist (o : JObj) (mode : String) :
    objGet (coerceToSchemaShape o mode) "reproduction_checklist"
      = objGet (coerceChecklist (coerceActionItems (coercePromote o)))
          "reproduction_checklist" := by
  unfold coerceToSchemaShape
  rw [objGet_coerceInputConsistent_ne _ _ _ (by decide),
    objGet_coerceRelatedWorks_ne _ _ (by decide)]

/-- The final `related_works` value is produced by section 4. -/
theorem objGet_coerce_related_works (o : JObj) (mode : String) :
    objGet (coerceToSchemaShape o mode) "related_works"
      = objGet (coerceRelatedWorks (coerceChecklist (coerceActionItems (coercePromote o))))
          "related_works" := by
  unfold coerceToSchemaShape
  rw [objGet_coerceInputConsistent_ne _ _ _ (by decide)]

/-- Sections 2 and 3 do not move the `related_works` value prepared by
promotion. -/
theorem pyGet_sections23_related_works (o : JObj) :
    pyGet (coerceChecklist (coerceActionItems o)) "related_works"
      = pyGet o "related_works" := by
  unfold pyGet
  rw [objGet_coerceChecklist_ne _ _ (by decide), objGet_coerceActionItems_ne _ _ (by decide)]

/-- Sections 1–3 do not touch `input`. -/
theorem objGet_sections123_input (o : JObj) :
    objGet (coerceChecklist (coerceActionItems (coercePromote o))) "input"
      = objGet o "input" := by
  rw [objGet_coerceChecklist_ne _ _ (by decide), objGet_coerceActionItems_ne _ _ (by decide),
    objGet_coercePromote_ne _ _ (by decide) (by decide) (by decide)]

/-! ## Hardening lemmas (claims C5 and C10) -/

theorem objGet_objSetdefault_preserve (o : JObj) (k k' : String) (v w : JValue)
    (h : objGet o k = some v) : objGet (objSetdefault o k' w) k = some v := by
  by_cases hk : k = k'
  · subst hk
    rw [objSetdefault_of_mem o k w (objMem_of_objGet o k v h)]
    exact h
  · rw [objGet_objSetdefault_ne o k' k w hk]
    exact h

theorem objGet_hardenInput_ne (o : JObj) (mode topic pdfName : String) (k : String)
    (h : k ≠ "input") :
    objGet (hardenInput o mode topic pdfName) k = objGet o k := by
  unfold hardenInput
  split
  · exact objGet_objSet_ne _ _ _ _ h
  · split
    · exact objGet_objSet_ne _ _ _ _ h
    · exact objGet_objSet_ne _ _ _ _ h

theorem objGet_qualityToDict_ne (o : JObj) (k : String) (h : k ≠ "quality") :
    objGet (qualityToDict o) k = objGet o k := by
  unfold qualityToDict
  split
  · rfl
  · exact objGet_objSet_ne _ _ _ _ h

theorem objGet_hardenQuality_ne (o : JObj) (k : String) (h : k ≠ "quality") :
    objGet (hardenQuality o) k = objGet o k := by
  unfold hardenQuality
  rw [objGet_objSet_ne _ _ _ _ h]
  exact objGet_qualityToDict_ne o k h

/-- `selfChecksFix` always leaves a list under `self_checks`. -/
theorem selfChecksFix_self_checks (q : JObj) :
    ∃ sc, objGet (selfChecksFix q) "self_checks" = some (.arr sc) := by
  unfold selfChecksFix
  split
  · next sc heq => exact ⟨sc, heq⟩
  · exact ⟨[], objGet_objSet_self _ _ _⟩

/-- The hardened document always carries a `quality` dict whose `self_checks`
is a list. -/
theorem hardenQuality_quality (o : JObj) :
    ∃ q sc, objGet (hardenQuality o) "quality" = some (.obj q) ∧
      objGet q "self_checks" = some (.arr sc) := by
  unfold hardenQuality
  obtain ⟨sc, hsc⟩ := selfChecksFix_self_checks (asObjD (pyGet (qualityToDict o) "quality"))
  exact ⟨_, sc, objGet_objSet_self _ _ _, hsc⟩

/-- `inputFill` guarantees the `mode` key and the mode-specific identifying
key, and never overwrites an existing binding. -/
theorem inputFill_spec (inp : JObj) (mode topic pdfName : String) :
    objMem (inputFill inp mode topic pdfName) "mode" = true ∧
    objMem (inputFill inp mode topic pdfName)
      (if mode = "topic" then "topic" else "pdf_name") = true ∧
    (∀ k v, objGet inp k = some v → objGet (inputFill inp mode topic pdfName) k = some v) := by
  unfold inputFill
  by_cases hm : mode = "topic"
  · simp only [hm, if_true]
    refine ⟨?_, objMem_objSetdefault_self _ _ _, ?_⟩
    · rw [objMem_objSetdefault_ne _ _ _ _ (by decide)]
      exact objMem_objSetdefault_self _ _ _
    · intro k v hk
      exact objGet_objSetdefault_preserve _ _ _ _ _
        (objGet_objSetdefault_preserve _ _ _ _ _ hk)
  · simp only [hm, if_false]
    refine ⟨?_, objMem_objSetdefault_self _ _ _, ?_⟩
    · rw [objMem_objSetdefault_ne _ _ _ _ (by decide)]
      exact objMem_objSetdefault_self _ _ _
    · intro k v hk
      exact objGet_objSetdefault_preserve _ _ _ _ _
        (objGet_objSetdefault_preserve _ _ _ _ _ hk)

/--
C5.  For every raw value (also a string, a number, or `None`), hardening
returns a mapping whose `trace_id` is the orchestrator-assigned value, whose
`input` is a mapping containing `mode` and the mode-specific identifying field
— filling only missing keys, never overwriting an existing binding of a
present `input` mapping — and whose `quality` is a mapping with a list-valued
`self_checks`.
-/
theorem hardening_never_fails (raw : JValue) (traceId mode topic pdfName : String) :
    objGet (ensureOutputHardened raw traceId mode topic pdfName) "trace_id"
        = some (.str traceId) ∧
    (∃ inp, objGet (ensureOutputHardened raw traceId mode topic pdfName) "input"
          = some (.obj inp) ∧
        objMem inp "mode" = true ∧
        objMem inp (if mode = "topic" then "topic" else "pdf_name") = true ∧
        (∀ fs inp0 k v, raw = .obj fs → objGet fs "input" = some (.obj inp0) →
          objGet inp0 k = some v → objGet inp k = some v)) ∧
    (∃ q sc, objGet (ensureOutputHardened raw traceId mode topic pdfName) "quality"
          = some (.obj q) ∧
        objGet q "self_checks" = some (.arr sc)) := by
  unfold ensureOutputHardened
  refine ⟨?_, ?_, hardenQuality_quality _⟩
  · rw [objGet_hardenQuality_ne _ _ (by decide), objGet_hardenInput_ne _ _ _ _ _ (by decide)]
    exact objGet_objSet_self _ _ _
  · rw [objGet_hardenQuality_ne _ _ (by decide)]
    unfold hardenInput
    split
    · next inp0' heq =>
        obtain ⟨hm, hi, hpres⟩ := inputFill_spec inp0' mode topic pdfName
        refine ⟨_, objGet_objSet_self _ _ _, hm, hi, ?_⟩
        intro fs inp0 k v hraw hinp hk
        subst hraw
        have : objGet (objSet (forceDict (JValue.obj fs)) "trace_id" (.str traceId)) "input"
            = objGet fs "input" := objGet_objSet_ne _ _ _ _ (by decide)
        rw [this, hinp] at heq
        cases heq
        exact hpres k v hk
    · next hne =>
        by_cases hm : mode = "topic"
        · simp only [hm, if_true]
          refine ⟨_, objGet_objSet_self _ _ _, by simp [objMem, objGet],
            by simp [objMem, objGet], ?_⟩
          intro fs inp0 k v hraw hinp hk
          subst hraw
          have : objGet (objSet (forceDict (JValue.obj fs)) "trace_id" (.str traceId)) "input"
              = objGet fs "input" := objGet_objSet_ne _ _ _ _ (by decide)
          rw [this, hinp] at hne
          exact absurd rfl (hne inp0)
        · simp only [hm, if_false]
          refine ⟨_, objGet_objSet_self _ _ _, by simp [objMem, objGet],
            by simp [objMem, objGet], ?_⟩
          intro fs inp0 k v hraw hinp hk
          subst hraw
          have : objGet (objSet (forceDict (JValue.obj fs)) "trace_id" (.str traceId)) "input"
              = objGet fs "input" := objGet_objSet_ne _ _ _ _ (by decide)
          rw [this, hinp] at hne
          exact absurd rfl (hne inp0)

/-- Witness for C5 at a concrete malformed input (`raw = None`) and at a
concrete present `input` mapping whose existing binding survives. -/
theorem hardening_never_fails_witness :
    objGet (ensureOutputHardened .null "T" "topic" "tp" "") "trace_id"
        = some (.str "T") ∧
    (∃ inp, objGet (ensureOutputHardened (.obj [("input", .obj [("topic", .str "keep")])])
          "T" "topic" "tp" "") "input" = some (.obj inp) ∧
        objGet inp "topic" = some (.str "keep") ∧ objMem inp "mode" = true) := by
  refine ⟨(hardening_never_fails .null "T" "topic" "tp" "").1, ?_⟩
  obtain ⟨-, ⟨inp, hinp, hm, -, hpres⟩, -⟩ :=
    hardening_never_fails (.obj [("input", .obj [("topic", .str "keep")])]) "T" "topic" "tp" ""
  exact ⟨inp, hinp, hpres _ _ _ _ rfl rfl rfl, hm⟩

/--
C10.  For raw generation output that is already a mapping, hardening leaves
every top-level key other than `trace_id`, `input` and `quality` unchanged.
-/
theorem hardening_frame (fs : JObj) (traceId mode topic pdfName : String) (k : String)
    (h1 : k ≠ "trace_id") (h2 : k ≠ "input") (h3 : k ≠ "quality") :
    objGet (ensureOutputHardened (.obj fs) traceId mode topic pdfName) k = objGet fs k := by
  unfold ensureOutputHardened
  rw [objGet_hardenQuality_ne _ _ h3, objGet_hardenInput_ne _ _ _ _ _ h2,
    objGet_objSet_ne _ _ _ _ h1]
  rfl

/-- Witness for C10: model-supplied `related_works`, `action_items` and
`target_paper` pass through hardening untouched. -/
theorem hardening_frame_witness :
    objGet (ensureOutputHardened
        (.obj [("related_works", .str "rw"), ("target_paper", .int 7),
               ("action_items", .arr [.str "a"])]) "T" "topic" "tp" "")
      "related_works" = some (.str "rw") ∧
    objGet (ensureOutputHardened
        (.obj [("related_works", .str "rw"), ("target_paper", .int 7),
               ("action_items", .arr [.str "a"])]) "T" "topic" "tp" "")
      "target_paper" = some (.int 7) := by
  constructor
  · rw [hardening_frame _ "T" "topic" "tp" "" "related_works"
      (by decide) (by decide) (by decide)]
    rfl
  · rw [hardening_frame _ "T" "topic" "tp" "" "target_paper"
      (by decide) (by decide) (by decide)]
    rfl

/-! ## Validator lemmas (claims C8 and C9) -/

theorem pathElemLe_total (a b : PathElem) : (pathElemLe a b || pathElemLe b a) = true := by
  cases a with
  | idx m =>
      cases b with
      | idx n =>
          rcases Int.le_total m n with h | h <;> simp [pathElemLe, h]
      | key t => simp [pathElemLe]
  | key s =>
      cases b with
      | idx n => simp [pathElemLe]
      | key t =>
          rcases le_total s t with h | h <;> simp [pathElemLe, h]

theorem pathElemLe_trans (a b c : PathElem) (h1 : pathElemLe a b = true)
    (h2 : pathElemLe b c = true) : pathElemLe a c = true := by
  cases a with
  | idx m =>
      cases c with
      | idx p =>
          cases b with
          | idx n =>
              exact decide_eq_true
                (Int.le_trans (of_decide_eq_true h1) (of_decide_eq_true h2))
          | key t => exact absurd h2 (by simp [pathElemLe])
      | key t => simp [pathElemLe]
  | key s =>
      cases b with
      | idx n => exact absurd h1 (by simp [pathElemLe])
      | key t =>
          cases c with
          | idx p => exact absurd h2 (by simp [pathElemLe])
          | key u =>
              exact decide_eq_true
                (le_trans (α := String) (of_decide_eq_true h1) (of_decide_eq_true h2))

theorem pathElemLe_antisymm (a b : PathElem) (h1 : pathElemLe a b = true)
    (h2 : pathElemLe b a = true) : a = b := by
  cases a with
  | idx m =>
      cases b with
      | idx n =>
          have g1 : m ≤ n := of_decide_eq_true h1
          have g2 : n ≤ m := of_decide_eq_true h2
          rw [Int.le_antisymm g1 g2]
      | key t => exact absurd h2 (by simp [pathElemLe])
  | key s =>
      cases b with
      | idx n => exact absurd h1 (by simp [pathElemLe])
      | key t =>
          have g1 : s ≤ t := of_decide_eq_true h1
          have g2 : t ≤ s := of_decide_eq_true h2
          rw [le_antisymm g1 g2]

theorem pathLe_total (a b : List PathElem) : (pathLe a b || pathLe b a) = true := by
  induction a generalizing b with
  | nil => simp [pathLe]
  | cons x as ih =>
      cases b with
      | nil => simp [pathLe]
      | cons y bs =>
          by_cases hxy : x = y
          · subst hxy
            simpa [pathLe] using ih bs
          · have hyx : ¬ (y = x) := fun h => hxy h.symm
            simpa [pathLe, hxy, hyx] using pathElemLe_total x y

theorem pathLe_trans (a b c : List PathElem) (h1 : pathLe a b = true)
    (h2 : pathLe b c = true) : pathLe a c = true := by
  induction a generalizing b c with
  | nil => simp [pathLe]
  | cons x as ih =>
      cases b with
      | nil => simp [pathLe] at h1
      | cons y bs =>
          cases c with
          | nil => simp [pathLe] at h2
          | cons z cs =>
              by_cases hxy : x = y
              · subst hxy
                by_cases hxz : x = z
                · subst hxz
                  simp only [pathLe, if_pos rfl] at h1 h2 ⊢
                  exact ih bs cs h1 h2
                · simp only [pathLe, if_pos rfl] at h1
                  simp only [pathLe, if_neg hxz] at h2 ⊢
                  exact h2
              · simp only [pathLe, if_neg hxy] at h1
                by_cases hyz : y = z
                · subst hyz
                  simp only [pathLe, if_neg hxy]
                  exact h1
                · simp only [pathLe, if_neg hyz] at h2
                  by_cases hxz : x = z
                  · subst hxz
                    exact absurd (pathElemLe_antisymm y x h2 h1) (fun h => hxy h.symm)
                  · simp only [pathLe, if_neg hxz]
                    exact pathElemLe_trans x y z h1 h2

/--
C8.  The validator is deterministic: two invocations on the same payload give
identical results, and the underlying error list (whose formatted 20-element
prefix is the message list) is sorted by structural path.
-/
theorem validator_deterministic (iterErrors : JValue → List SchemaError)
    (payload : JValue) :
    validate_json iterErrors payload = validate_json iterErrors payload ∧
    List.Pairwise (fun a b => pathLe a.path b.path = true)
      (sortedErrors iterErrors payload) ∧
    (validate_json iterErrors payload).2
      = ((sortedErrors iterErrors payload).take 20).map formatError := by
  refine ⟨rfl, ?_, rfl⟩
  exact @List.sorted_mergeSort SchemaError (fun a b => pathLe a.path b.path)
    (fun a b c h1 h2 => pathLe_trans _ _ _ h1 h2)
    (fun a b => pathLe_total _ _) (iterErrors payload)

/--
C9.  `validate_json` returns at most 20 messages; its boolean is computed over
the full error list, and is true exactly when the message list is empty — so
truncation can never flip a failing document to passing.
-/
theorem validator_truncation (iterErrors : JValue → List SchemaError)
    (payload : JValue) :
    (validate_json iterErrors payload).2.length ≤ 20 ∧
    ((validate_json iterErrors payload).1 = true ↔ iterErrors payload = []) ∧
    ((validate_json iterErrors payload).1 = true
      ↔ (validate_json iterErrors payload).2 = []) := by
  have hlen : (sortedErrors iterErrors payload).length = (iterErrors payload).length :=
    List.length_mergeSort _
  have hempty : (sortedErrors iterErrors payload).length = 0 ↔ iterErrors payload = [] := by
    rw [hlen, List.length_eq_zero]
  refine ⟨?_, ?_, ?_⟩
  · simp only [validate_json, List.length_map, List.length_take]
    exact Nat.min_le_left _ _
  · simp only [validate_json, Nat.beq_eq_true_eq]
    exact hempty
  · simp only [validate_json, Nat.beq_eq_true_eq, List.map_eq_nil_iff,
      List.take_eq_nil_iff]
    constructor
    · intro h
      right
      exact List.length_eq_zero.mp h
    · rintro (h | h)
      · cases h
      · rw [h]
        rfl

/-! ## Orchestrator attempt lemmas (claims C4 and C3) -/

theorem validate_json_ok_iff (f : JValue → List SchemaError) (p : JValue) :
    (validate_json f p).1 = true ↔ f p = [] := by
  have hlen : (sortedErrors f p).length = (f p).length := List.length_mergeSort _
  simp only [validate_json, Nat.beq_eq_true_eq]
  rw [hlen, List.length_eq_zero]

theorem validate_json_fst_false (f : JValue → List SchemaError) (p : JValue)
    (h : f p ≠ []) : (validate_json f p).1 = false := by
  cases hb : (validate_json f p).1 with
  | false => rfl
  | true => exact absurd ((validate_json_ok_iff f p).mp hb) h

theorem qualityOf_objSet_quality (o : JObj) (q : JObj) :
    qualityOf (objSet o "quality" (.obj q)) = q := by
  simp [qualityOf, pyGet, objGet_objSet_self, asObjD]

theorem selfChecksOf_postValidateDoc (o : JObj) (b : Bool) :
    selfChecksOf (postValidateDoc o b) = selfChecksOf o := by
  unfold selfChecksOf postValidateDoc
  rw [qualityOf_objSet_quality]
  unfold pyGet
  rw [objGet_objSet_ne _ _ _ _ (by decide)]

theorem pyListSet_some (xs : List JValue) (sc : List JValue)
    (h : pyListSet xs = some sc) :
    sc = xs.dedup ∧ xs.all pyHashable = true := by
  unfold pyListSet at h
  by_cases hall : xs.all pyHashable = true
  · rw [if_pos hall] at h
    injection h with h'
    exact ⟨h'.symm, hall⟩
  · rw [if_neg hall] at h
    cases h

theorem attemptStep_some (iterErrors : JValue → List SchemaError) (raw : JValue)
    (traceId mode topic pdfName : String) (out : JObj) (ok : Bool) (errs : List String)
    (h : attemptStep iterErrors raw traceId mode topic pdfName = some (out, ok, errs)) :
    ok = (attemptValidated iterErrors raw traceId mode topic pdfName).1 ∧
    errs = (attemptValidated iterErrors raw traceId mode topic pdfName).2 ∧
    ∃ sc, pyListSet (selfChecksOf (attemptDocValidated iterErrors raw traceId mode topic pdfName)
        ++ [.str "json_schema_v1"]) = some sc ∧
      out = setSelfChecksDoc (attemptDocValidated iterErrors raw traceId mode topic pdfName) sc := by
  unfold attemptStep at h
  split at h
  · cases h
  · next sc heq =>
      simp only [Option.some.injEq, Prod.mk.injEq] at h
      obtain ⟨ho, hok, herrs⟩ := h
      exact ⟨hok.symm, herrs.symm, sc, heq, ho.symm⟩

/--
C4, amended.  In every orchestrator attempt, `quality.schema_valid` is
overwritten with that attempt's validation result; `quality.self_checks` of
the attempt's resulting document is the duplicate-free union of the previous
self-checks with the fixed label `"json_schema_v1"` — but the union is applied
after validation (see the counterexample for the claim's "before").
-/
theorem attempt_quality_annotation (iterErrors : JValue → List SchemaError) (raw : JValue)
    (traceId mode topic pdfName : String) (out : JObj) (ok : Bool) (errs : List String)
    (h : attemptStep iterErrors raw traceId mode topic pdfName = some (out, ok, errs)) :
    (ok, errs) = validate_json iterErrors
        (.obj (preValidateDoc raw traceId mode topic pdfName)) ∧
    objGet (qualityOf out) "schema_valid" = some (.bool ok) ∧
    ∃ sc, objGet (qualityOf out) "self_checks" = some (.arr sc) ∧
      sc.Nodup ∧
      (∀ v, v ∈ sc ↔
        v ∈ selfChecksOf (preValidateDoc raw traceId mode topic pdfName)
          ∨ v = .str "json_schema_v1") := by
  obtain ⟨hok, herrs, sc, hset, hout⟩ := attemptStep_some _ _ _ _ _ _ _ _ _ h
  obtain ⟨hdedup, -⟩ := pyListSet_some _ _ hset
  refine ⟨?_, ?_, sc, ?_, ?_, ?_⟩
  · rw [hok, herrs]
    rfl
  · rw [hout]
    unfold setSelfChecksDoc
    rw [qualityOf_objSet_quality, objGet_objSet_ne _ _ _ _ (by decide)]
    unfold attemptDocValidated postValidateDoc
    rw [qualityOf_objSet_quality, objGet_objSet_self, hok]
  · rw [hout]
    unfold setSelfChecksDoc
    rw [qualityOf_objSet_quality, objGet_objSet_self]
  · rw [hdedup]
    exact List.nodup_dedup _
  · intro v
    rw [hdedup, List.mem_dedup, List.mem_append, List.mem_singleton]
    unfold attemptDocValidated
    rw [selfChecksOf_postValidateDoc]

/--
Counterexample for C4 as stated: the claim puts the union with
`"json_schema_v1"` before validation, but the document an attempt passes to
`validate_json` (`preValidateDoc`, agent.py line 312) does not contain the
label: for the concrete raw output `None`, its `self_checks` is empty.
-/
theorem attempt_label_absent_before_validation :
    JValue.str "json_schema_v1" ∉ selfChecksOf (preValidateDoc .null "t" "topic" "x" "") := by
  have h : selfChecksOf (preValidateDoc .null "t" "topic" "x" "") = [] := by
    unfold preValidateDoc
    rfl
  rw [h]
  exact List.not_mem_nil _

/-- Witness for C4 at a concrete attempt (`raw = None`, validator with no
errors). -/
theorem attempt_quality_annotation_witness :
    objGet (qualityOf (setSelfChecksDoc
        (attemptDocValidated (fun _ => []) .null "t" "topic" "x" "")
        (([] ++ [JValue.str "json_schema_v1"]).dedup))) "schema_valid"
      = some (.bool (attemptValidated (fun _ => []) .null "t" "topic" "x" "").1) := by
  have hsc : selfChecksOf (attemptDocValidated (fun _ => []) .null "t" "topic" "x" "") = [] := by
    unfold attemptDocValidated
    rw [selfChecksOf_postValidateDoc]
    unfold preValidateDoc
    rfl
  have h : attemptStep (fun _ => []) .null "t" "topic" "x" ""
      = some (setSelfChecksDoc (attemptDocValidated (fun _ => []) .null "t" "topic" "x" "")
          (([] ++ [JValue.str "json_schema_v1"]).dedup),
        (attemptValidated (fun _ => []) .null "t" "topic" "x" "").1,
        (attemptValidated (fun _ => []) .null "t" "topic" "x" "").2) := by
    unfold attemptStep
    rw [hsc]
    rfl
  exact ( attempt_quality_annotation _ _ _ _ _ _ _ _ _ h).2.1

theorem agentLoop_nil (iterErrors : JValue → List SchemaError) (llm : Nat → String → JValue)
    (traceId mode topic pdfName prompt : String) (lastErrors : List String) (out : JObj) :
    agentLoop iterErrors llm traceId mode topic pdfName [] prompt lastErrors out
      = some (bestEffortReturn out lastErrors, 0) := rfl

theorem agentLoop_cons_none (iterErrors : JValue → List SchemaError)
    (llm : Nat → String → JValue) (traceId mode topic pdfName : String)
    (attempt : Nat) (rest : List Nat) (prompt : String) (lastErrors : List String)
    (out0 : JObj)
    (h : attemptStep iterErrors (llm attempt prompt) traceId mode topic pdfName = none) :
    agentLoop iterErrors llm traceId mode topic pdfName (attempt :: rest) prompt
      lastErrors out0 = none := by
  simp only [agentLoop, h]

theorem agentLoop_cons_ok (iterErrors : JValue → List SchemaError)
    (llm : Nat → String → JValue) (traceId mode topic pdfName : String)
    (attempt : Nat) (rest : List Nat) (prompt : String) (lastErrors : List String)
    (out0 out : JObj) (errs : List String)
    (h : attemptStep iterErrors (llm attempt prompt) traceId mode topic pdfName
      = some (out, true, errs)) :
    agentLoop iterErrors llm traceId mode topic pdfName (attempt :: rest) prompt
      lastErrors out0 = some (out, 1) := by
  simp only [agentLoop, h, if_true]

theorem agentLoop_cons_fail (iterErrors : JValue → List SchemaError)
    (llm : Nat → String → JValue) (traceId mode topic pdfName : String)
    (attempt : Nat) (rest : List Nat) (prompt : String) (lastErrors : List String)
    (out0 out doc : JObj) (errs : List String) (n : Nat)
    (h : attemptStep iterErrors (llm attempt prompt) traceId mode topic pdfName
      = some (out, false, errs))
    (hrec : agentLoop iterErrors llm traceId mode topic pdfName rest
      (prompt ++ validationFeedback errs) errs out = some (doc, n)) :
    agentLoop iterErrors llm traceId mode topic pdfName (attempt :: rest) prompt
      lastErrors out0 = some (doc, n + 1) := by
  simp only [agentLoop, h, hrec, Bool.false_eq_true, if_false]

theorem agentLoop_cons_fail_none (iterErrors : JValue → List SchemaError)
    (llm : Nat → String → JValue) (traceId mode topic pdfName : String)
    (attempt : Nat) (rest : List Nat) (prompt : String) (lastErrors : List String)
    (out0 out : JObj) (errs : List String)
    (h : attemptStep iterErrors (llm attempt prompt) traceId mode topic pdfName
      = some (out, false, errs))
    (hrec : agentLoop iterErrors llm traceId mode topic pdfName rest
      (prompt ++ validationFeedback errs) errs out = none) :
    agentLoop iterErrors llm traceId mode topic pdfName (attempt :: rest) prompt
      lastErrors out0 = none := by
  simp only [agentLoop, h, hrec, Bool.false_eq_true, if_false]

theorem bestEffort_quality (o : JObj) (errs : List String) :
    objGet (qualityOf (bestEffortReturn o errs)) "schema_valid" = some (.bool false) ∧
    objGet (qualityOf (bestEffortReturn o errs)) "notes"
      = some (.str (retriesNote errs)) := by
  unfold bestEffortReturn
  rw [qualityOf_objSet_quality]
  constructor
  · rw [objGet_objSet_ne _ _ _ _ (by decide)]
    exact objGet_objSet_self _ _ _
  · exact objGet_objSet_self _ _ _

/-- A two-attempt loop in which validation always fails returns the
best-effort document of the second attempt, after exactly two generation
calls. -/
theorem agentLoop_two_fail (iterErrors : JValue → List SchemaError)
    (llm : Nat → String → JValue) (traceId mode topic pdfName prompt : String)
    (le0 : List String) (out0 : JObj) (hfail : ∀ p, iterErrors p ≠ [])
    (doc : JObj) (n : Nat)
    (h : agentLoop iterErrors llm traceId mode topic pdfName [1, 2] prompt le0 out0
      = some (doc, n)) :
    n = 2 ∧ ∃ out2,
      doc = bestEffortReturn out2
        (attemptValidated iterErrors
          (llm 2 (prompt ++ validationFeedback
            (attemptValidated iterErrors (llm 1 prompt) traceId mode topic pdfName).2))
          traceId mode topic pdfName).2 := by
  cases hA1 : attemptStep iterErrors (llm 1 prompt) traceId mode topic pdfName with
  | none =>
      rw [agentLoop_cons_none _ _ _ _ _ _ _ _ _ _ _ hA1] at h
      cases h
  | some trip1 =>
      obtain ⟨out1, ok1, errs1⟩ := trip1
      obtain ⟨hok1, herrs1, -⟩ := attemptStep_some _ _ _ _ _ _ _ _ _ hA1
      have hfalse1 : ok1 = false := by
        rw [hok1]
        exact validate_json_fst_false _ _ (hfail _)
      subst hfalse1
      cases hA2 : attemptStep iterErrors
          (llm 2 (prompt ++ validationFeedback errs1)) traceId mode topic pdfName with
      | none =>
          rw [agentLoop_cons_fail_none _ _ _ _ _ _ _ _ _ _ _ _ _ hA1
            (agentLoop_cons_none _ _ _ _ _ _ _ _ _ _ _ hA2)] at h
          cases h
      | some trip2 =>
          obtain ⟨out2, ok2, errs2⟩ := trip2
          obtain ⟨hok2, herrs2, -⟩ := attemptStep_some _ _ _ _ _ _ _ _ _ hA2
          have hfalse2 : ok2 = false := by
            rw [hok2]
            exact validate_json_fst_false _ _ (hfail _)
          subst hfalse2
          have hrec2 : agentLoop iterErrors llm traceId mode topic pdfName [2]
              (prompt ++ validationFeedback errs1) errs1 out1
              = some (bestEffortReturn out2 errs2, 0 + 1) :=
            agentLoop_cons_fail _ _ _ _ _ _ _ _ _ _ _ _ _ _ _ hA2
              (agentLoop_nil _ _ _ _ _ _ _ _ _)
          rw [agentLoop_cons_fail _ _ _ _ _ _ _ _ _ _ _ _ _ _ _ hA1 hrec2] at h
          simp only [Option.some.injEq, Prod.mk.injEq] at h
          obtain ⟨hdoc, hn⟩ := h
          refine ⟨hn.symm, out2, ?_⟩
          rw [← hdoc, herrs2, herrs1]

/--
C3, amended.  In a run where validation fails on both attempts, provided no
attempt hits an unhashable `self_checks` element (an unhashable element makes
the `list(set(...))` call raise `TypeError`, see the counterexample), the
orchestrator makes exactly 2 generation calls and returns a document whose
`quality.schema_valid` is `false` and whose `quality.notes` summarizes at most
8 validation error messages of the final attempt.  Both modes are covered.
-/
theorem exhausted_retries (iterErrors : JValue → List SchemaError)
    (llm : Nat → String → JValue) (traceId topic pdfName pdfText : String)
    (papers : List Paper) (hfail : ∀ p, iterErrors p ≠ []) :
    (∀ doc n, run_topic_agent iterErrors llm traceId topic papers = some (doc, n) →
      n = 2 ∧
      objGet (qualityOf doc) "schema_valid" = some (.bool false) ∧
      ∃ errs, errs = (attemptValidated iterErrors
          (llm 2 (buildTopicUserPrompt topic papers traceId ++ validationFeedback
            (attemptValidated iterErrors (llm 1 (buildTopicUserPrompt topic papers traceId))
              traceId "topic" topic "").2))
          traceId "topic" topic "").2 ∧
        objGet (qualityOf doc) "notes" = some (.str (retriesNote errs)) ∧
        (errs.take 8).length ≤ 8) ∧
    (∀ doc n, run_pdf_agent iterErrors llm traceId pdfName pdfText = some (doc, n) →
      n = 2 ∧
      objGet (qualityOf doc) "schema_valid" = some (.bool false) ∧
      ∃ errs, errs = (attemptValidated iterErrors
          (llm 2 (buildPdfUserPrompt pdfText ++ validationFeedback
            (attemptValidated iterErrors (llm 1 (buildPdfUserPrompt pdfText))
              traceId "pdf" "" pdfName).2))
          traceId "pdf" "" pdfName).2 ∧
        objGet (qualityOf doc) "notes" = some (.str (retriesNote errs)) ∧
        (errs.take 8).length ≤ 8) := by
  constructor
  · intro doc n h
    obtain ⟨hn, out2, hdoc⟩ := agentLoop_two_fail iterErrors llm traceId "topic" topic ""
      (buildTopicUserPrompt topic papers traceId) [] [] hfail doc n h
    subst hdoc
    refine ⟨hn, (bestEffort_quality _ _).1, _, rfl, (bestEffort_quality _ _).2, ?_⟩
    rw [List.length_take]
    exact Nat.min_le_left _ _
  · intro doc n h
    obtain ⟨hn, out2, hdoc⟩ := agentLoop_two_fail iterErrors llm traceId "pdf" "" pdfName
      (buildPdfUserPrompt pdfText) [] [] hfail doc n h
    subst hdoc
    refine ⟨hn, (bestEffort_quality _ _).1, _, rfl, (bestEffort_quality _ _).2, ?_⟩
    rw [List.length_take]
    exact Nat.min_le_left _ _

/-- Witness for C3: a concrete always-failing validator and a generator that
returns `None` on both attempts. -/
theorem exhausted_retries_witness :
    run_topic_agent (fun _ => [⟨[], "boom"⟩]) (fun _ _ => JValue.null) "t" "q" []
      = some (bestEffortReturn
          (setSelfChecksDoc
            (attemptDocValidated (fun _ => [⟨[], "boom"⟩]) JValue.null "t" "topic" "q" "")
            [JValue.str "json_schema_v1"])
          ["<root>: boom"], 2) ∧
    objGet (qualityOf (bestEffortReturn
        (setSelfChecksDoc
          (attemptDocValidated (fun _ => [⟨[], "boom"⟩]) JValue.null "t" "topic" "q" "")
          [JValue.str "json_schema_v1"])
        ["<root>: boom"])) "schema_valid" = some (.bool false) ∧
    objGet (qualityOf (bestEffortReturn
        (setSelfChecksDoc
          (attemptDocValidated (fun _ => [⟨[], "boom"⟩]) JValue.null "t" "topic" "q" "")
          [JValue.str "json_schema_v1"])
        ["<root>: boom"])) "notes"
      = some (.str (retriesNote ["<root>: boom"])) := by
  have hv : ∀ p, validate_json (fun _ => [(⟨[], "boom"⟩ : SchemaError)]) p
      = (false, ["<root>: boom"]) := by
    intro p
    unfold validate_json sortedErrors
    rw [List.mergeSort_singleton]
    rfl
  have hsc0 : selfChecksOf
      (attemptDocValidated (fun _ => [⟨[], "boom"⟩]) JValue.null "t" "topic" "q" "") = [] := by
    unfold attemptDocValidated
    rw [selfChecksOf_postValidateDoc]
    unfold preValidateDoc
    rfl
  have hA : attemptStep (fun _ => [⟨[], "boom"⟩]) JValue.null "t" "topic" "q" ""
      = some (setSelfChecksDoc
          (attemptDocValidated (fun _ => [⟨[], "boom"⟩]) JValue.null "t" "topic" "q" "")
          [JValue.str "json_schema_v1"], false, ["<root>: boom"]) := by
    unfold attemptStep
    rw [hsc0,
      show attemptValidated (fun _ => [⟨[], "boom"⟩]) JValue.null "t" "topic" "q" ""
        = (false, ["<root>: boom"]) from hv _]
    rfl
  have hfail : ∀ p, (fun _ : JValue => [(⟨[], "boom"⟩ : SchemaError)]) p ≠ [] :=
    fun _ => List.cons_ne_nil _ _
  have hrun : run_topic_agent (fun _ => [⟨[], "boom"⟩]) (fun _ _ => JValue.null) "t" "q" []
      = some (bestEffortReturn
          (setSelfChecksDoc
            (attemptDocValidated (fun _ => [⟨[], "boom"⟩]) JValue.null "t" "topic" "q" "")
            [JValue.str "json_schema_v1"])
          ["<root>: boom"], 2) := by
    unfold run_topic_agent
    exact agentLoop_cons_fail _ _ _ _ _ _ _ _ _ _ _ _ _ _ _ hA
      (agentLoop_cons_fail _ _ _ _ _ _ _ _ _ _ _ _ _ _ _ hA
        (agentLoop_nil _ _ _ _ _ _ _ _ _))
  obtain ⟨ht, -⟩ := exhausted_retries (fun _ => [⟨[], "boom"⟩]) (fun _ _ => JValue.null)
    "t" "q" "pn" "pt" [] hfail
  obtain ⟨-, hsv, errs, herrs, hnotes, -⟩ := ht _ 2 hrun
  have herrsval : errs = ["<root>: boom"] := by
    rw [herrs]
    rw [show attemptValidated (fun _ => [⟨[], "boom"⟩])
        ((fun _ _ => JValue.null) 2
          (buildTopicUserPrompt "q" [] "t" ++ validationFeedback
            (attemptValidated (fun _ => [⟨[], "boom"⟩])
              ((fun _ _ => JValue.null) 1 (buildTopicUserPrompt "q" [] "t"))
              "t" "topic" "q" "").2))
        "t" "topic" "q" "" = (false, ["<root>: boom"]) from hv _]
  rw [herrsval] at hnotes
  exact ⟨hrun, hsv, hnotes⟩

/--
Counterexample for C3 as stated: the claim promises the call "still returns a
document rather than raising", but when the model output carries an unhashable
element (a nested list) inside `quality.self_checks`, the
`list(set(...))` dedup at agent.py line 315 raises `TypeError` (modelled as
`none`) even though validation fails on both attempts.
-/
theorem run_raises_on_unhashable_self_check :
    run_topic_agent (fun _ => [⟨[], "boom"⟩])
      (fun _ _ => .obj [("quality", .obj [("self_checks", .arr [.arr []])])])
      "t" "q" [] = none := by
  have hsc : selfChecksOf (attemptDocValidated (fun _ => [⟨[], "boom"⟩])
      (.obj [("quality", .obj [("self_checks", .arr [.arr []])])])
      "t" "topic" "q" "") = [.arr []] := by
    unfold attemptDocValidated
    rw [selfChecksOf_postValidateDoc]
    unfold preValidateDoc
    rfl
  have hA : attemptStep (fun _ => [⟨[], "boom"⟩])
      (.obj [("quality", .obj [("self_checks", .arr [.arr []])])])
      "t" "topic" "q" "" = none := by
    unfold attemptStep
    rw [hsc]
    rfl
  unfold run_topic_agent
  exact agentLoop_cons_none _ _ _ _ _ _ _ _ _ _ _ hA

/-! ## Action-items coercion (claim C1) -/

theorem isObj_iff (x : JValue) : isObj x = true ↔ ∃ fs, x = .obj fs := by
  cases x <;> simp [isObj]

theorem mem_padTo_take {α : Type} (x : α) (l : List α) (n m : Nat) (p : α)
    (h : x ∈ (padTo l n p).take m) : x ∈ l ∨ x = p := by
  have hx : x ∈ padTo l n p := List.take_subset m _ h
  unfold padTo at hx
  rcases List.mem_append.mp hx with h1 | h2
  · exact Or.inl h1
  · exact Or.inr (List.eq_of_mem_replicate h2)

theorem length_padTo_take5 {α : Type} (l : List α) (p : α) :
    ((padTo l 5 p).take 5).length = 5 := by
  rw [List.length_take]
  unfold padTo
  rw [List.length_append, List.length_replicate]
  omega

theorem coercePriority_cases (v : JValue) :
    coercePriority v = "high" ∨ coercePriority v = "medium" ∨ coercePriority v = "low" := by
  cases v with
  | str s =>
      have hred : coercePriority (.str s)
          = (if pyLower s = "high" ∨ pyLower s = "medium" ∨ pyLower s = "low"
             then pyLower s else "medium") := rfl
      rw [hred]
      split
      · next hcond => exact hcond
      · exact Or.inr (Or.inl rfl)
  | null => exact Or.inr (Or.inl rfl)
  | bool b => exact Or.inr (Or.inl rfl)
  | int n => exact Or.inr (Or.inl rfl)
  | float q => exact Or.inr (Or.inl rfl)
  | arr xs => exact Or.inr (Or.inl rfl)
  | obj fs => exact Or.inr (Or.inl rfl)

theorem actionItemOk_normalize (x : JValue) (h : isObj x = true) :
    actionItemOk (normalizeActionItem x) = true := by
  obtain ⟨it, rfl⟩ := (isObj_iff x).mp h
  unfold normalizeActionItem actionItemOk
  rw [Bool.and_eq_true]
  constructor
  · rw [objMem_objSet_ne _ _ _ _ (by decide)]
    exact objMem_objSetdefault_self _ _ _
  · rw [objGet_objSet_self]
    rcases coercePriority_cases (pyGetD (objSetdefault it "action"
        (.str "Define next action item")) "priority" (.str "medium")) with hp | hp | hp <;>
      simp [hp]

theorem actionItemOk_pad : actionItemOk padActionItem = true := by decide

theorem aiNormalizeDicts_spec (o : JObj) (ys : List JValue)
    (h : pyGet o "action_items" = .arr ys) (hobj : ys.all isObj = true) :
    ∃ xs, objGet (aiNormalizeDicts o) "action_items" = some (.arr xs) ∧
      xs.length = 5 ∧ ∀ x ∈ xs, actionItemOk x = true := by
  unfold aiNormalizeDicts
  split
  · next ys' heq =>
      rw [h] at heq
      obtain rfl : ys = ys' := by cases heq; rfl
      rw [if_pos hobj]
      refine ⟨_, objGet_objSet_self _ _ _, length_padTo_take5 _ _, ?_⟩
      intro x hx
      rcases mem_padTo_take x _ _ _ _ hx with h1 | h1
      · obtain ⟨y, hy, rfl⟩ := List.mem_map.mp h1
        exact actionItemOk_normalize y
          (List.all_eq_true.mp hobj y (List.take_subset 5 ys hy))
      · rw [h1]
        exact actionItemOk_pad
  · next heq =>
      exact absurd h (heq ys)

theorem aiWrapStr_of_str (o : JObj) (s : String) (h : pyGet o "action_items" = .str s) :
    aiWrapStr o = objSet o "action_items" (.arr [.str s]) := by
  unfold aiWrapStr
  split
  · next s' heq =>
      rw [h] at heq
      cases heq
      rfl
  · next heq => exact absurd h (heq s)

theorem aiWrapStr_of_arr (o : JObj) (ys : List JValue)
    (h : pyGet o "action_items" = .arr ys) : aiWrapStr o = o := by
  unfold aiWrapStr
  split
  · next s' heq => rw [h] at heq; cases heq
  · rfl

theorem aiStrListToDicts_of_strlist (o : JObj) (ys : List JValue)
    (h : pyGet o "action_items" = .arr ys)
    (hstr : (ys.isEmpty || ys.all isStr) = true) :
    aiStrListToDicts o = objSet o "action_items"
      (.arr ((padTo ((ys.take 5).map strToActionItem) 5 padActionItem).take 5)) := by
  unfold aiStrListToDicts
  split
  · next ys' heq =>
      rw [h] at heq
      obtain rfl : ys = ys' := by cases heq; rfl
      rw [if_pos hstr]
  · next heq => exact absurd h (heq ys)

theorem aiStrListToDicts_of_not_strlist (o : JObj) (ys : List JValue)
    (h : pyGet o "action_items" = .arr ys)
    (hstr : (ys.isEmpty || ys.all isStr) = false) :
    aiStrListToDicts o = o := by
  unfold aiStrListToDicts
  split
  · next ys' heq =>
      rw [h] at heq
      obtain rfl : ys = ys' := by cases heq; rfl
      rw [if_neg (by rw [hstr]; exact Bool.false_ne_true)]
  · rfl

theorem strList_fixed_all_obj (ys : List JValue) :
    ((padTo ((ys.take 5).map strToActionItem) 5 padActionItem).take 5).all isObj = true := by
  rw [List.all_eq_true]
  intro x hx
  rcases mem_padTo_take x _ _ _ _ hx with h1 | h1
  · obtain ⟨y, -, rfl⟩ := List.mem_map.mp h1
    rfl
  · rw [h1]
    rfl

/--
C1, amended.  For every document whose `action_items` (after the promotion
step) is a string, a list of strings (or empty list), or a list of mappings,
the coerced result has exactly 5 `action_items`, each a mapping with an
`action` key and a `priority` drawn from {high, medium, low}; shorter lists
are padded (with `{action: "Define next action item", priority: "low"}`) and
longer ones truncated.  An `action_items` value of any other shape — absent,
a number, a mapping, or a mixed list — is left untouched by the coercer (see
the counterexample).
-/
theorem coerced_action_items (d : JObj) (mode : String)
    (h : aiCoercible (pyGet (coercePromote d) "action_items") = true) :
    ∃ xs, objGet (coerceToSchemaShape d mode) "action_items" = some (.arr xs) ∧
      xs.length = 5 ∧ ∀ x ∈ xs, actionItemOk x = true := by
  rw [objGet_coerce_action_items]
  unfold coerceActionItems
  cases hv : pyGet (coercePromote d) "action_items" with
  | str s =>
      rw [aiWrapStr_of_str _ _ hv]
      have h2 : pyGet (objSet (coercePromote d) "action_items" (.arr [.str s]))
          "action_items" = .arr [.str s] := pyGet_objSet_self _ _ _
      rw [aiStrListToDicts_of_strlist _ _ h2 (by rfl)]
      exact aiNormalizeDicts_spec _ _ (pyGet_objSet_self _ _ _) (strList_fixed_all_obj _)
  | arr ys =>
      rw [aiWrapStr_of_arr _ _ hv]
      by_cases hstr : (ys.isEmpty || ys.all isStr) = true
      · rw [aiStrListToDicts_of_strlist _ _ hv hstr]
        exact aiNormalizeDicts_spec _ _ (pyGet_objSet_self _ _ _) (strList_fixed_all_obj _)
      · have hstrf : (ys.isEmpty || ys.all isStr) = false := by
          cases hb : (ys.isEmpty || ys.all isStr)
          · rfl
          · exact absurd hb hstr
        rw [aiStrListToDicts_of_not_strlist _ _ hv hstrf]
        have h3 : aiCoercible (JValue.arr ys) = true := by
          first
            | exact h
            | (rw [hv] at h; exact h)
        have h4 : (ys.all isStr || ys.all isObj) = true := h3
        have h5 : ys.all isStr = true ∨ ys.all isObj = true := by simpa using h4
        have hobj : ys.all isObj = true := by
          rcases h5 with h1 | h1
          · rw [h1, Bool.or_true] at hstrf
            cases hstrf
          · exact h1
        exact aiNormalizeDicts_spec _ _ hv hobj
  | null => simp [aiCoercible, hv] at h
  | bool b => simp [aiCoercible, hv] at h
  | int n => simp [aiCoercible, hv] at h
  | float q => simp [aiCoercible, hv] at h
  | obj fs => simp [aiCoercible, hv] at h

/--
Counterexample for C1 as stated: a hardened document with no `action_items`
at all leaves the coerced result without an `action_items` field — no
five-element list is produced.
-/
theorem coerced_action_items_counterexample :
    objGet (coerceToSchemaShape (ensureOutputHardened .null "t" "topic" "q" "") "topic")
      "action_items" = none := by rfl

/-- Witness for C1 at the concrete promoted string-list input. -/
theorem coerced_action_items_witness :
    ∃ xs, objGet (coerceToSchemaShape [("action_items", JValue.arr [.str "Do X"])] "topic")
        "action_items" = some (.arr xs) ∧
      xs.length = 5 ∧ ∀ x ∈ xs, actionItemOk x = true :=
  coerced_action_items [("action_items", JValue.arr [.str "Do X"])] "topic" (by rfl)

/-! ## Year parsing (claim C7) -/

/-- Observer: the `year` of the first `related_works` entry of a document. -/
def firstRWYear (o : JObj) : Option JValue :=
  match objGet o "related_works" with
  | some (.arr (JValue.obj it :: _)) => objGet it "year"
  | _ => none

/-- A document whose only content is one related-work entry with year `y`. -/
def yearDoc (y : JValue) : JObj :=
  [("related_works", .arr [.obj [("year", y)]])]

/-- A document with no related works and one candidate paper with year `y`. -/
def candDoc (y : JValue) : JObj :=
  [("input", .obj [("candidate_papers", .arr [.obj [("year", y)]])])]

theorem tdiv_nonpos_of_nonpos {a : Int} (b : Int) (ha : a ≤ 0) (hb : 0 ≤ b) :
    a.tdiv b ≤ 0 := by
  have h1 : 0 ≤ (-a).tdiv b := Int.tdiv_nonneg (by omega) hb
  have h2 : (-a).tdiv b = -(a.tdiv b) := Int.neg_tdiv a b
  omega

/--
C7, amended.  The in-place year parse maps `"2020"` to 2020, `2020.0` to 2020,
`-1` to 0, `"n/a"` to 0 and an absent year to 0 — both when normalizing
`related_works` entries and when deriving entries from
`input.candidate_papers` — except that the derivation drops the
non-negativity requirement: a negative numeric year is truncated to its
integer value, never clamped to 0 (so `-1` derives as `-1`, not 0).
-/
theorem year_parsing :
    firstRWYear (coerceToSchemaShape (yearDoc (.str "2020")) "topic") = some (.int 2020) ∧
    firstRWYear (coerceToSchemaShape (yearDoc (.float 2020)) "topic") = some (.int 2020) ∧
    firstRWYear (coerceToSchemaShape (yearDoc (.int (-1))) "topic") = some (.int 0) ∧
    firstRWYear (coerceToSchemaShape (yearDoc (.str "n/a")) "topic") = some (.int 0) ∧
    firstRWYear (coerceToSchemaShape [("related_works", .arr [.obj []])] "topic")
      = some (.int 0) ∧
    firstRWYear (coerceToSchemaShape (candDoc (.str "2020")) "topic") = some (.int 2020) ∧
    firstRWYear (coerceToSchemaShape (candDoc (.float 2020)) "topic") = some (.int 2020) ∧
    firstRWYear (coerceToSchemaShape (candDoc (.str "n/a")) "topic") = some (.int 0) ∧
    firstRWYear (coerceToSchemaShape (candDoc (.int (-1))) "topic") = some (.int (-1)) ∧
    (∀ v, coerceRelatedYear v = candidateYear v ∨
      ∃ n, n ≤ 0 ∧ candidateYear v = .int n ∧ coerceRelatedYear v = .int 0) := by
  refine ⟨by decide, by decide, by decide, by decide, by decide, by decide, by decide,
    by decide, by decide, ?_⟩
  intro v
  cases v with
  | int n =>
      by_cases hn : n ≥ 0
      · left
        simp [coerceRelatedYear, candidateYear, hn]
      · right
        exact ⟨n, by omega, rfl, by simp [coerceRelatedYear, hn]⟩
  | float q =>
      by_cases hq : q ≥ 0
      · left
        simp [coerceRelatedYear, candidateYear, hq]
      · right
        refine ⟨ratTruncToInt q, ?_, rfl, by simp [coerceRelatedYear, hq]⟩
        unfold ratTruncToInt
        have hnum : q.num ≤ 0 := by
          by_contra hpos
          exact hq (Rat.num_nonneg.mp (by omega))
        exact tdiv_nonpos_of_nonpos _ hnum (by positivity)
  | str s => left; rfl
  | bool b => left; rfl
  | null => left; rfl
  | arr xs => left; rfl
  | obj fs => left; rfl

/--
Counterexample for C7 as stated: the claim says the derivation from
`input.candidate_papers` applies the same rule including the non-negativity
requirement, under which a year of `-1` would become 0; the code derives `-1`
unchanged (agent.py lines 223–229 lack the `y >= 0` guard of lines 190–196).
-/
theorem year_parsing_counterexample :
    firstRWYear (coerceToSchemaShape (candDoc (.int (-1))) "topic") = some (.int (-1)) ∧
    coerceRelatedYear (.int (-1)) = .int 0 := by
  constructor
  · decide
  · decide

/-! ## Related-works coercion (claims C2 and C6) -/

theorem objMem_objSetdefault_preserve (o : JObj) (k k' : String) (v : JValue)
    (h : objMem o k = true) : objMem (objSetdefault o k' v) k = true := by
  by_cases hk : k = k'
  · subst hk
    exact objMem_objSetdefault_self _ _ _
  · rw [objMem_objSetdefault_ne _ _ _ _ hk]
    exact h

theorem coerceRelatedYear_int (n : Int) :
    coerceRelatedYear (.int n) = if n ≥ 0 then .int n else .int 0 := rfl

theorem coerceRelatedYear_float (q : Rat) :
    coerceRelatedYear (.float q) = if q ≥ 0 then .int (ratTruncToInt q) else .int 0 := rfl

theorem coerceRelatedYear_str (s : String) :
    coerceRelatedYear (.str s)
      = if pyIsDigit s = true then .int (digitStrToInt s) else .int 0 := rfl

theorem coerceRelatedYear_nonneg (y : JValue) :
    ∃ n : Int, 0 ≤ n ∧ coerceRelatedYear y = .int n := by
  cases y with
  | int n =>
      rw [coerceRelatedYear_int]
      by_cases hn : n ≥ 0
      · exact ⟨n, hn, by rw [if_pos hn]⟩
      · exact ⟨0, le_refl 0, by rw [if_neg hn]⟩
  | float q =>
      rw [coerceRelatedYear_float]
      by_cases hq : q ≥ 0
      · refine ⟨ratTruncToInt q, ?_, by rw [if_pos hq]⟩
        unfold ratTruncToInt
        exact Int.tdiv_nonneg (Rat.num_nonneg.mpr hq) (by positivity)
      · exact ⟨0, le_refl 0, by rw [if_neg hq]⟩
  | bool b => cases b <;> exact ⟨_, by omega, rfl⟩
  | str s =>
      rw [coerceRelatedYear_str]
      by_cases hs : pyIsDigit s = true
      · exact ⟨digitStrToInt s, Int.ofNat_nonneg _, by rw [if_pos hs]⟩
      · exact ⟨0, le_refl 0, by rw [if_neg hs]⟩
  | null => exact ⟨0, le_refl 0, rfl⟩
  | arr xs => exact ⟨0, le_refl 0, rfl⟩
  | obj fs => exact ⟨0, le_refl 0, rfl⟩

theorem coerceRelatedYear_int_nonneg (n : Int) (hn : 0 ≤ n) :
    coerceRelatedYear (.int n) = .int n := by
  rw [coerceRelatedYear_int, if_pos hn]

theorem coerceRelatedYear_idem (y : JValue) :
    coerceRelatedYear (coerceRelatedYear y) = coerceRelatedYear y := by
  obtain ⟨n, hn, hy⟩ := coerceRelatedYear_nonneg y
  rw [hy]
  exact coerceRelatedYear_int_nonneg n hn

theorem normalizeRelatedWork_isObj (it : JObj) :
    ∃ fs, normalizeRelatedWork (.obj it) = .obj fs := ⟨_, rfl⟩

theorem normalizeRelatedWork_keys (it : JObj) :
    rwKeysOk (normalizeRelatedWork (.obj it)) = true := by
  unfold normalizeRelatedWork rwKeysOk
  simp only [Bool.and_eq_true]
  refine ⟨⟨⟨?_, ?_⟩, ?_⟩, ?_⟩
  · exact objMem_objSetdefault_preserve _ _ _ _
      (objMem_objSetdefault_preserve _ _ _ _
        (objMem_objSetdefault_preserve _ _ _ _
          (by rw [objMem_objSet_ne _ _ _ _ (by decide)]
              exact objMem_objSetdefault_self _ _ _)))
  · exact objMem_objSetdefault_preserve _ _ _ _
      (objMem_objSetdefault_preserve _ _ _ _
        (objMem_objSetdefault_preserve _ _ _ _ (objMem_objSet_self _ _ _)))
  · exact objMem_objSetdefault_preserve _ _ _ _
      (objMem_objSetdefault_preserve _ _ _ _ (objMem_objSetdefault_self _ _ _))
  · exact objMem_objSetdefault_preserve _ _ _ _ (objMem_objSetdefault_self _ _ _)

theorem objGet_objSetdefault_pres_ne (o : JObj) (k k' : String) (v w : JValue)
    (hne : k ≠ k') (h : objGet o k = some v) :
    objGet (objSetdefault o k' w) k = some v := by
  rw [objGet_objSetdefault_ne _ _ _ _ hne]
  exact h

theorem normalizeRelatedWork_idem (x : JValue) :
    normalizeRelatedWork (normalizeRelatedWork x) = normalizeRelatedWork x := by
  cases x with
  | obj it =>
      have hred : normalizeRelatedWork (.obj it)
          = .obj (objSetdefault (objSetdefault (objSetdefault
              (objSet (objSetdefault it "title" (.str "Unknown title")) "year"
                (coerceRelatedYear (pyGetD (objSetdefault it "title" (.str "Unknown title"))
                  "year" (.int 0))))
              "url" (.str ""))
              "key_contribution"
              (pyOr (pyGetD (objSetdefault (objSet (objSetdefault it "title"
                  (.str "Unknown title")) "year"
                  (coerceRelatedYear (pyGetD (objSetdefault it "title" (.str "Unknown title"))
                    "year" (.int 0)))) "url" (.str "")) "relevance_reason" (.str ""))
                (.str "Key contribution not provided.")))
              "relevance_reason" (.str "")) := rfl
      set it1 := objSetdefault it "title" (.str "Unknown title") with hit1
      rw [hred]
      set y := coerceRelatedYear (pyGetD it1 "year" (.int 0)) with hy
      set it2 := objSet it1 "year" y with hit2
      set it3 := objSetdefault it2 "url" (.str "") with hit3
      set it4 := objSetdefault it3 "key_contribution"
        (pyOr (pyGetD it3 "relevance_reason" (.str "")) (.str "Key contribution not provided."))
        with hit4
      set it5 := objSetdefault it4 "relevance_reason" (.str "") with hit5
      -- facts about it5
      have htitle : objMem it5 "title" = true := by
        rw [hit5, hit4, hit3, hit2]
        exact objMem_objSetdefault_preserve _ _ _ _
          (objMem_objSetdefault_preserve _ _ _ _
            (objMem_objSetdefault_preserve _ _ _ _
              (by rw [objMem_objSet_ne _ _ _ _ (by decide)]
                  exact objMem_objSetdefault_self _ _ _)))
      have hyearget : objGet it5 "year" = some y := by
        rw [hit5, hit4, hit3]
        exact objGet_objSetdefault_pres_ne _ _ _ _ _ (by decide)
          (objGet_objSetdefault_pres_ne _ _ _ _ _ (by decide)
            (objGet_objSetdefault_pres_ne _ _ _ _ _ (by decide)
              (objGet_objSet_self _ _ _)))
      have hurl : objMem it5 "url" = true := by
        rw [hit5, hit4]
        exact objMem_objSetdefault_preserve _ _ _ _
          (objMem_objSetdefault_preserve _ _ _ _ (objMem_objSetdefault_self _ _ _))
      have hkc : objMem it5 "key_contribution" = true := by
        rw [hit5]
        exact objMem_objSetdefault_preserve _ _ _ _ (objMem_objSetdefault_self _ _ _)
      have hrr : objMem it5 "relevance_reason" = true := by
        rw [hit5]
        exact objMem_objSetdefault_self _ _ _
      -- second application
      have hred2 : normalizeRelatedWork (.obj it5)
          = .obj (objSetdefault (objSetdefault (objSetdefault
              (objSet (objSetdefault it5 "title" (.str "Unknown title")) "year"
                (coerceRelatedYear (pyGetD (objSetdefault it5 "title" (.str "Unknown title"))
                  "year" (.int 0))))
              "url" (.str ""))
              "key_contribution"
              (pyOr (pyGetD (objSetdefault (objSet (objSetdefault it5 "title"
                  (.str "Unknown title")) "year"
                  (coerceRelatedYear (pyGetD (objSetdefault it5 "title" (.str "Unknown title"))
                    "year" (.int 0)))) "url" (.str "")) "relevance_reason" (.str ""))
                (.str "Key contribution not provided.")))
              "relevance_reason" (.str "")) := rfl
      rw [hred2]
      rw [objSetdefault_of_mem _ _ _ htitle]
      have hy2 : pyGetD it5 "year" (.int 0) = y := by
        unfold pyGetD
        rw [hyearget]
        rfl
      rw [hy2, hy, coerceRelatedYear_idem,
        objSet_of_objGet_eq _ _ _ (hy ▸ hyearget),
        objSetdefault_of_mem _ _ _ hurl,
        objSetdefault_of_mem _ _ _ hkc,
        objSetdefault_of_mem _ _ _ hrr]
  | null => rfl
  | bool b => rfl
  | int n => rfl
  | float q => rfl
  | str s => rfl
  | arr xs => rfl

theorem candidateToRelatedWork_keys (p : JObj) :
    rwKeysOk (candidateToRelatedWork p) = true := rfl

theorem candidateToRelatedWork_isObj (p : JObj) :
    isObj (candidateToRelatedWork p) = true := rfl

/-- A derived candidate entry with a non-negative year is a fixpoint of the
related-work normalizer. -/
theorem normalizeRelatedWork_candidate (p : JValue) (hok : candYearOk p = true) :
    normalizeRelatedWork (candidateToRelatedWork (asObjD p)) = candidateToRelatedWork (asObjD p) := by
  obtain ⟨n, hy⟩ : ∃ n, candidateYear (pyGetD (asObjD p) "year" (.int 0)) = .int n := by
    cases hv : pyGetD (asObjD p) "year" (.int 0) with
    | int m => exact ⟨m, rfl⟩
    | float q => exact ⟨_, rfl⟩
    | bool b => exact ⟨_, rfl⟩
    | str s =>
        by_cases hs : pyIsDigit s = true
        · refine ⟨digitStrToInt s, ?_⟩
          show (if pyIsDigit s = true then JValue.int (digitStrToInt s) else .int 0)
            = .int (digitStrToInt s)
          rw [if_pos hs]
        · refine ⟨0, ?_⟩
          show (if pyIsDigit s = true then JValue.int (digitStrToInt s) else .int 0) = .int 0
          rw [if_neg hs]
    | null => exact ⟨0, rfl⟩
    | arr xs => exact ⟨0, rfl⟩
    | obj fs => exact ⟨0, rfl⟩
  have hn : 0 ≤ n := by
    cases hp : p with
    | obj pp =>
        rw [hp] at hok hy
        have hok2 : (match candidateYear (pyGetD pp "year" (.int 0)) with
            | JValue.int m => decide (0 ≤ m)
            | _ => false) = true := hok
        rw [show asObjD (JValue.obj pp) = pp from rfl] at hy
        rw [hy] at hok2
        have hok3 : decide (0 ≤ n) = true := hok2
        exact of_decide_eq_true hok3
    | null =>
        rw [hp] at hy
        have : candidateYear (pyGetD (asObjD JValue.null) "year" (.int 0)) = .int 0 := rfl
        rw [this] at hy
        cases hy
        exact le_refl 0
    | bool b =>
        rw [hp] at hy
        have : candidateYear (pyGetD (asObjD (JValue.bool b)) "year" (.int 0)) = .int 0 := rfl
        rw [this] at hy
        cases hy
        exact le_refl 0
    | int m =>
        rw [hp] at hy
        have : candidateYear (pyGetD (asObjD (JValue.int m)) "year" (.int 0)) = .int 0 := rfl
        rw [this] at hy
        cases hy
        exact le_refl 0
    | float q =>
        rw [hp] at hy
        have : candidateYear (pyGetD (asObjD (JValue.float q)) "year" (.int 0)) = .int 0 := rfl
        rw [this] at hy
        cases hy
        exact le_refl 0
    | str s =>
        rw [hp] at hy
        have : candidateYear (pyGetD (asObjD (JValue.str s)) "year" (.int 0)) = .int 0 := rfl
        rw [this] at hy
        cases hy
        exact le_refl 0
    | arr xs =>
        rw [hp] at hy
        have : candidateYear (pyGetD (asObjD (JValue.arr xs)) "year" (.int 0)) = .int 0 := rfl
        rw [this] at hy
        cases hy
        exact le_refl 0
  -- now compute the normalizer on the explicit five-field entry
  unfold candidateToRelatedWork
  rw [hy]
  have hred : normalizeRelatedWork (.obj
      [("title", pyGetD (asObjD p) "title" (.str "Unknown title")),
       ("year", .int n),
       ("url", pyGetD (asObjD p) "url" (.str "")),
       ("key_contribution", pyOr (pyGet (asObjD p) "key_contribution")
         (.str "Key contribution not provided.")),
       ("relevance_reason", pyGetD (asObjD p) "relevance_reason" (.str ""))])
      = .obj (objSetdefault (objSetdefault (objSetdefault (objSet
          [("title", pyGetD (asObjD p) "title" (.str "Unknown title")),
           ("year", .int n),
           ("url", pyGetD (asObjD p) "url" (.str "")),
           ("key_contribution", pyOr (pyGet (asObjD p) "key_contribution")
             (.str "Key contribution not provided.")),
           ("relevance_reason", pyGetD (asObjD p) "relevance_reason" (.str ""))]
          "year" (coerceRelatedYear (.int n)))
          "url" (.str ""))
          "key_contribution"
          (pyOr (pyGetD (objSetdefault (objSet
            [("title", pyGetD (asObjD p) "title" (.str "Unknown title")),
             ("year", .int n),
             ("url", pyGetD (asObjD p) "url" (.str "")),
             ("key_contribution", pyOr (pyGet (asObjD p) "key_contribution")
               (.str "Key contribution not provided.")),
             ("relevance_reason", pyGetD (asObjD p) "relevance_reason" (.str ""))]
            "year" (coerceRelatedYear (.int n))) "url" (.str ""))
            "relevance_reason" (.str "")) (.str "Key contribution not provided.")))
          "relevance_reason" (.str "")) := rfl
  rw [hred, coerceRelatedYear_int_nonneg n hn]
  rw [objSet_of_objGet_eq _ _ _ (by rfl)]
  rw [objSetdefault_of_mem _ _ _ (by rfl)]
  rw [objSetdefault_of_mem _ _ _ (by rfl)]
  rw [objSetdefault_of_mem _ _ _ (by rfl)]

theorem sentinel_isObj : isObj sentinelRelatedWork = true := rfl

theorem sentinel_keys : rwKeysOk sentinelRelatedWork = true := by decide

theorem sentinel_fixed : normalizeRelatedWork sentinelRelatedWork = sentinelRelatedWork := by
  decide

theorem rwWrapStr_of_str (o : JObj) (s : String)
    (h : pyGet o "related_works" = .str s) :
    rwWrapStr o = objSet o "related_works" (.arr [strToRelatedWork s]) := by
  unfold rwWrapStr
  split
  · next s' heq =>
      rw [h] at heq
      cases heq
      rfl
  · next heq => exact absurd h (heq s)

theorem rwWrapStr_of_not_str (o : JObj)
    (h : ∀ s, pyGet o "related_works" ≠ .str s) : rwWrapStr o = o := by
  unfold rwWrapStr
  split
  · next s' heq => exact absurd heq (h s')
  · rfl

theorem rwNormalizeList_of_fixed (o : JObj) (xs : List JValue)
    (h : pyGet o "related_works" = .arr xs) (hne : rwFixedList xs ≠ []) :
    rwNormalizeList o = objSet o "related_works" (.arr ((rwFixedList xs).take 5)) := by
  unfold rwNormalizeList
  split
  · next xs' heq =>
      rw [h] at heq
      obtain rfl : xs = xs' := by cases heq; rfl
      rw [if_pos (by simpa using hne)]
  · next heq => exact absurd h (heq xs)

theorem rwNormalizeList_of_empty (o : JObj) (xs : List JValue)
    (h : pyGet o "related_works" = .arr xs) (hemp : rwFixedList xs = []) :
    rwNormalizeList o = o := by
  unfold rwNormalizeList
  split
  · next xs' heq =>
      rw [h] at heq
      obtain rfl : xs = xs' := by cases heq; rfl
      rw [if_neg (by simp [hemp])]
  · rfl

theorem rwNormalizeList_of_not_arr (o : JObj)
    (h : ∀ xs, pyGet o "related_works" ≠ .arr xs) : rwNormalizeList o = o := by
  unfold rwNormalizeList
  split
  · next xs' heq => exact absurd heq (h xs')
  · rfl

theorem rwDeriveFromCandidates_skip (o : JObj) (xs : List JValue)
    (h : objGet o "related_works" = some (.arr xs)) (hne : xs ≠ []) :
    rwDeriveFromCandidates o = o := by
  unfold rwDeriveFromCandidates
  rw [if_neg]
  have h1 : objMem o "related_works" = true := objMem_of_objGet _ _ _ h
  have h2 : pyGet o "related_works" = .arr xs := pyGet_eq_of_objGet _ _ _ h
  have h3 : pyGetD o "related_works" (.arr []) = .arr xs := by
    unfold pyGetD
    rw [h]
    rfl
  rw [h1, h2, h3]
  simp [isArr, asArrD, hne]

/-- When the derive condition holds, the derive step is governed by
`candPapersOf`. -/
theorem rwDeriveFromCandidates_active_arr (o : JObj) (cs : List JValue)
    (hcond : (!objMem o "related_works" || !isArr (pyGet o "related_works")
      || (asArrD (pyGetD o "related_works" (.arr []))).isEmpty) = true)
    (hc : candPapersOf o = .arr cs) (hne : cs ≠ []) :
    rwDeriveFromCandidates o = objSet o "related_works" (.arr ((rwDerivedList cs).take 5)) := by
  unfold rwDeriveFromCandidates
  rw [if_pos hcond]
  split
  · next cs' heq =>
      rw [hc] at heq
      obtain rfl : cs = cs' := by cases heq; rfl
      rw [if_pos (by simpa using hne)]
  · next heq => exact absurd hc (heq cs)

theorem rwDeriveFromCandidates_active_skip (o : JObj)
    (h : (∀ cs, candPapersOf o ≠ .arr cs) ∨ candPapersOf o = .arr []) :
    rwDeriveFromCandidates o = o := by
  unfold rwDeriveFromCandidates
  split
  · split
    · next cs' heq =>
        rcases h with h | h
        · exact absurd heq (h cs')
        · rw [h] at heq
          obtain rfl : cs' = [] := by cases heq; rfl
          rw [if_neg (by simp)]
    · rfl
  · rfl

theorem rwFinalFix_of_arr (o : JObj) (xs : List JValue)
    (h : pyGet o "related_works" = .arr xs) :
    rwFinalFix o = objSet o "related_works"
      (.arr (padTo ((xs.filter isObj).take 5) 3 sentinelRelatedWork)) := by
  unfold rwFinalFix
  split
  · next xs' heq =>
      rw [h] at heq
      obtain rfl : xs = xs' := by cases heq; rfl
      rfl
  · next heq => exact absurd h (heq xs)

theorem rwFinalFix_of_not_arr (o : JObj)
    (h : ∀ xs, pyGet o "related_works" ≠ .arr xs) :
    rwFinalFix o = objSet (objSet o "related_works" (.arr [])) "related_works"
      (.arr (padTo ((([] : List JValue).filter isObj).take 5) 3 sentinelRelatedWork)) := by
  unfold rwFinalFix
  split
  · next xs' heq => exact absurd heq (h xs')
  · rfl

theorem length_padTo_take5_3 (l : List JValue) :
    3 ≤ (padTo (l.take 5) 3 sentinelRelatedWork).length ∧
    (padTo (l.take 5) 3 sentinelRelatedWork).length ≤ 5 := by
  unfold padTo
  rw [List.length_append, List.length_replicate, List.length_take]
  omega

theorem mem_padTo (x : JValue) (l : List JValue) (n : Nat) (p : JValue)
    (h : x ∈ padTo l n p) : x ∈ l ∨ x = p := by
  unfold padTo at h
  rcases List.mem_append.mp h with h1 | h1
  · exact Or.inl h1
  · exact Or.inr (List.eq_of_mem_replicate h1)

theorem pyGet_eq_some (o : JObj) (k : String) (v : JValue)
    (h : pyGet o k = v) (hnn : v ≠ .null) : objGet o k = some v := by
  unfold pyGet at h
  revert h
  cases hg : objGet o k with
  | none =>
      intro h
      have h2 : JValue.null = v := h
      exact absurd h2.symm hnn
  | some w =>
      intro h
      have h2 : w = v := h
      rw [h2]

theorem isObj_normalizeRelatedWork (it : JObj) :
    isObj (normalizeRelatedWork (.obj it)) = true := rfl

theorem candsOk_of_candPapers (o : JObj) (cs : List JValue)
    (h : candPapersOf o = .arr cs) (hok : candsOk o = true) :
    cs.all candYearOk = true := by
  unfold candPapersOf at h
  unfold candsOk at hok
  split at h
  · next inp heq =>
      rw [heq] at hok
      have hg : objGet inp "candidate_papers" = some (.arr cs) :=
        pyGet_eq_some _ _ _ h (by intro hc; cases hc)
      have hok2 : (match objGet inp "candidate_papers" with
          | some (JValue.arr cs2) => cs2.all candYearOk
          | _ => true) = true := hok
      rw [hg] at hok2
      have hok3 : cs.all candYearOk = true := hok2
      exact hok3
  · cases h

theorem finalFix_eq (o3 : JObj) (L : List JValue)
    (h : pyGet o3 "related_works" = .arr L) :
    objGet (rwFinalFix o3) "related_works"
      = some (.arr (padTo ((L.filter isObj).take 5) 3 sentinelRelatedWork)) := by
  rw [rwFinalFix_of_arr o3 L h]
  exact objGet_objSet_self _ _ _

theorem padded_props (L : List JValue)
    (hkeys : ∀ w ∈ L, isObj w = true → rwKeysOk w = true) :
    ∀ w ∈ padTo ((L.filter isObj).take 5) 3 sentinelRelatedWork,
      isObj w = true ∧ rwKeysOk w = true := by
  intro w hw
  rcases mem_padTo _ _ _ _ hw with h1 | h1
  · have h2 : w ∈ L.filter isObj := List.take_subset _ _ h1
    obtain ⟨hmem, hobj⟩ := List.mem_filter.mp h2
    exact ⟨hobj, hkeys w hmem hobj⟩
  · rw [h1]
    exact ⟨sentinel_isObj, sentinel_keys⟩

theorem padded_fixed (L : List JValue)
    (hfix : ∀ w ∈ L, isObj w = true → normalizeRelatedWork w = w) :
    ∀ w ∈ padTo ((L.filter isObj).take 5) 3 sentinelRelatedWork,
      normalizeRelatedWork w = w := by
  intro w hw
  rcases mem_padTo _ _ _ _ hw with h1 | h1
  · have h2 : w ∈ L.filter isObj := List.take_subset _ _ h1
    obtain ⟨hmem, hobj⟩ := List.mem_filter.mp h2
    exact hfix w hmem hobj
  · rw [h1]
    exact sentinel_fixed

/-- Behaviour of the derive-then-final tail of section 4 when `related_works`
is an empty list or not a list at all. -/
theorem rwDeriveFinal_spec (o : JObj)
    (hor : pyGet o "related_works" = .arr []
      ∨ ∀ xs, pyGet o "related_works" ≠ .arr xs) :
    ∃ ws, objGet (rwFinalFix (rwDeriveFromCandidates o)) "related_works"
        = some (.arr ws) ∧
      3 ≤ ws.length ∧ ws.length ≤ 5 ∧
      (∀ w ∈ ws, isObj w = true ∧ rwKeysOk w = true) ∧
      (candsOk o = true → ∀ w ∈ ws, normalizeRelatedWork w = w) := by
  have hcond : (!objMem o "related_works" || !isArr (pyGet o "related_works")
      || (asArrD (pyGetD o "related_works" (.arr []))).isEmpty) = true := by
    rcases hor with h | h
    · have hg : objGet o "related_works" = some (.arr []) :=
        pyGet_eq_some _ _ _ h (by intro hc; cases hc)
      have h3 : pyGetD o "related_works" (.arr []) = .arr [] := by
        unfold pyGetD
        rw [hg]
        rfl
      rw [h3]
      simp [asArrD]
    · have hna : isArr (pyGet o "related_works") = false := by
        cases hval : pyGet o "related_works" <;> first | rfl | exact absurd hval (h _)
      rw [hna]
      simp
  have hfin_of_skip : rwDeriveFromCandidates o = o →
      ∃ ws, objGet (rwFinalFix (rwDeriveFromCandidates o)) "related_works"
          = some (.arr ws) ∧
        3 ≤ ws.length ∧ ws.length ≤ 5 ∧
        (∀ w ∈ ws, isObj w = true ∧ rwKeysOk w = true) ∧
        (candsOk o = true → ∀ w ∈ ws, normalizeRelatedWork w = w) := by
    intro hd
    rw [hd]
    rcases hor with h | h
    · refine ⟨_, finalFix_eq o [] h, (length_padTo_take5_3 _).1,
        (length_padTo_take5_3 _).2, padded_props _ ?_, fun _ => padded_fixed _ ?_⟩
      · intro w hw
        cases hw
      · intro w hw
        cases hw
    · rw [rwFinalFix_of_not_arr o h]
      refine ⟨_, objGet_objSet_self _ _ _, (length_padTo_take5_3 _).1,
        (length_padTo_take5_3 _).2, padded_props _ ?_, fun _ => padded_fixed _ ?_⟩
      · intro w hw
        cases hw
      · intro w hw
        cases hw
  cases hc : candPapersOf o with
  | arr cs =>
      by_cases hce : cs = []
      · exact hfin_of_skip (rwDeriveFromCandidates_active_skip o (Or.inr (by rw [hc, hce])))
      · have hd := rwDeriveFromCandidates_active_arr o cs hcond hc hce
        rw [hd]
        have hvD : pyGet (objSet o "related_works" (.arr ((rwDerivedList cs).take 5)))
            "related_works" = .arr ((rwDerivedList cs).take 5) := pyGet_objSet_self _ _ _
        have hD : ∀ w ∈ (rwDerivedList cs).take 5,
            ∃ p, p ∈ cs ∧ w = candidateToRelatedWork (asObjD p) := by
          intro w hw
          have h2 : w ∈ rwDerivedList cs := List.take_subset _ _ hw
          unfold rwDerivedList at h2
          obtain ⟨p, hp, rfl⟩ := List.mem_map.mp h2
          obtain ⟨hp2, -⟩ := List.mem_filter.mp hp
          exact ⟨p, List.take_subset _ _ hp2, rfl⟩
        refine ⟨_, finalFix_eq _ _ hvD, (length_padTo_take5_3 _).1,
          (length_padTo_take5_3 _).2, padded_props _ ?_, fun hcands => padded_fixed _ ?_⟩
        · intro w hw _
          obtain ⟨p, -, rfl⟩ := hD w hw
          exact candidateToRelatedWork_keys _
        · intro w hw _
          obtain ⟨p, hp, rfl⟩ := hD w hw
          have hall := candsOk_of_candPapers o cs hc hcands
          exact normalizeRelatedWork_candidate p (List.all_eq_true.mp hall p hp)
  | null =>
      exact hfin_of_skip (rwDeriveFromCandidates_active_skip o
        (Or.inl (fun cs hcc => by rw [hc] at hcc; cases hcc)))
  | bool b =>
      exact hfin_of_skip (rwDeriveFromCandidates_active_skip o
        (Or.inl (fun cs hcc => by rw [hc] at hcc; cases hcc)))
  | int n =>
      exact hfin_of_skip (rwDeriveFromCandidates_active_skip o
        (Or.inl (fun cs hcc => by rw [hc] at hcc; cases hcc)))
  | float q =>
      exact hfin_of_skip (rwDeriveFromCandidates_active_skip o
        (Or.inl (fun cs hcc => by rw [hc] at hcc; cases hcc)))
  | str s =>
      exact hfin_of_skip (rwDeriveFromCandidates_active_skip o
        (Or.inl (fun cs hcc => by rw [hc] at hcc; cases hcc)))
  | obj fs =>
      exact hfin_of_skip (rwDeriveFromCandidates_active_skip o
        (Or.inl (fun cs hcc => by rw [hc] at hcc; cases hcc)))

theorem take5_ne_nil (l : List JValue) (h : l ≠ []) : l.take 5 ≠ [] := by
  intro hc
  rw [List.take_eq_nil_iff] at hc
  rcases hc with hc | hc
  · cases hc
  · exact h hc

/--
Section 4 as a whole: under the proviso, the coerced `related_works` is a list
of 3–5 dicts, each carrying the four required keys; and when every candidate
year is non-negative, each entry is a fixpoint of the normalizer.
-/
theorem rwPipeline_spec (o : JObj)
    (hprov : rwProviso (pyGet o "related_works") = true) :
    ∃ ws, objGet (coerceRelatedWorks o) "related_works" = some (.arr ws) ∧
      3 ≤ ws.length ∧ ws.length ≤ 5 ∧
      (∀ w ∈ ws, isObj w = true ∧ rwKeysOk w = true) ∧
      (candsOk o = true → ∀ w ∈ ws, normalizeRelatedWork w = w) := by
  unfold coerceRelatedWorks
  cases hv : pyGet o "related_works" with
  | str s =>
      rw [rwWrapStr_of_str o s hv]
      have hv1 : pyGet (objSet o "related_works" (.arr [strToRelatedWork s]))
          "related_works" = .arr [strToRelatedWork s] := pyGet_objSet_self _ _ _
      have hF : rwFixedList [strToRelatedWork s]
          = [normalizeRelatedWork (strToRelatedWork s)] := rfl
      have hFne : rwFixedList [strToRelatedWork s] ≠ [] := by
        rw [hF]
        exact List.cons_ne_nil _ _
      rw [rwNormalizeList_of_fixed _ _ hv1 hFne]
      have hv2 : objGet (objSet (objSet o "related_works" (.arr [strToRelatedWork s]))
          "related_works" (.arr ((rwFixedList [strToRelatedWork s]).take 5)))
          "related_works" = some (.arr ((rwFixedList [strToRelatedWork s]).take 5)) :=
        objGet_objSet_self _ _ _
      rw [rwDeriveFromCandidates_skip _ _ hv2 (by rw [hF]; intro hc; cases hc)]
      refine ⟨_, finalFix_eq _ _ (pyGet_eq_of_objGet _ _ _ hv2),
        (length_padTo_take5_3 _).1, (length_padTo_take5_3 _).2,
        padded_props _ ?_, fun _ => padded_fixed _ ?_⟩
      · intro w hw _
        rw [hF] at hw
        have h2 : w = normalizeRelatedWork (strToRelatedWork s) :=
          List.eq_of_mem_singleton (by simpa using hw)
        rw [h2]
        exact normalizeRelatedWork_keys _
      · intro w hw _
        rw [hF] at hw
        have h2 : w = normalizeRelatedWork (strToRelatedWork s) :=
          List.eq_of_mem_singleton (by simpa using hw)
        rw [h2]
        exact normalizeRelatedWork_idem _
  | arr xs =>
      have hwrap : rwWrapStr o = o :=
        rwWrapStr_of_not_str o (fun s hc => by rw [hv] at hc; cases hc)
      rw [hwrap]
      by_cases hfe : rwFixedList xs = []
      · by_cases hxe : xs = []
        · subst hxe
          rw [rwNormalizeList_of_empty o [] hv rfl]
          exact rwDeriveFinal_spec o (Or.inl hv)
        · rw [rwNormalizeList_of_empty o xs hv hfe]
          have hg : objGet o "related_works" = some (.arr xs) :=
            pyGet_eq_some _ _ _ hv (by intro hc; cases hc)
          rw [rwDeriveFromCandidates_skip o xs hg hxe]
          -- under the proviso, no entry of xs is a dict
          have htake : ∀ w ∈ xs.take 5, isObj w = false := by
            have h1 : (xs.take 5).filter isObj = [] := by
              have h2 : ((xs.take 5).filter isObj).map normalizeRelatedWork = [] := hfe
              exact List.map_eq_nil_iff.mp h2
            intro w hw
            have := List.filter_eq_nil_iff.mp h1 w hw
            cases hiw : isObj w
            · rfl
            · exact absurd hiw this
          have hdrop : ∀ w ∈ xs.drop 5, isObj w = false := by
            have hp : (!((xs.take 5).all (fun x => !isObj x) && (xs.drop 5).any isObj))
                = true := by
              have hred : rwProviso (.arr xs)
                  = !((xs.take 5).all (fun x => !isObj x) && (xs.drop 5).any isObj) := rfl
              rw [hv, hred] at hprov
              exact hprov
            have hall : (xs.take 5).all (fun x => !isObj x) = true := by
              rw [List.all_eq_true]
              intro w hw
              rw [htake w hw]
              rfl
            rw [hall, Bool.true_and, Bool.not_eq_true'] at hp
            intro w hw
            have := List.any_eq_false.mp hp w hw
            cases hiw : isObj w
            · rfl
            · exact absurd hiw this
          have hfilter : xs.filter isObj = [] := by
            rw [List.filter_eq_nil_iff]
            intro w hw
            rw [← List.take_append_drop 5 xs] at hw
            rcases List.mem_append.mp hw with h1 | h1
            · rw [htake w h1]
              exact Bool.false_ne_true
            · rw [hdrop w h1]
              exact Bool.false_ne_true
          refine ⟨_, finalFix_eq _ _ hv, (length_padTo_take5_3 _).1,
            (length_padTo_take5_3 _).2, padded_props _ ?_, fun _ => padded_fixed _ ?_⟩
          · intro w hw hobj
            exact absurd hobj (List.filter_eq_nil_iff.mp hfilter w hw)
          · intro w hw hobj
            exact absurd hobj (List.filter_eq_nil_iff.mp hfilter w hw)
      · rw [rwNormalizeList_of_fixed o xs hv hfe]
        have hv2 : objGet (objSet o "related_works" (.arr ((rwFixedList xs).take 5)))
            "related_works" = some (.arr ((rwFixedList xs).take 5)) :=
          objGet_objSet_self _ _ _
        rw [rwDeriveFromCandidates_skip _ _ hv2 (take5_ne_nil _ hfe)]
        have hFmem : ∀ w ∈ (rwFixedList xs).take 5,
            ∃ it : JObj, w = normalizeRelatedWork (.obj it) := by
          intro w hw
          have h2 : w ∈ rwFixedList xs := List.take_subset _ _ hw
          unfold rwFixedList at h2
          obtain ⟨x, hx, rfl⟩ := List.mem_map.mp h2
          obtain ⟨-, hobj⟩ := List.mem_filter.mp hx
          obtain ⟨it, rfl⟩ := (isObj_iff x).mp hobj
          exact ⟨it, rfl⟩
        refine ⟨_, finalFix_eq _ _ (pyGet_eq_of_objGet _ _ _ hv2),
          (length_padTo_take5_3 _).1, (length_padTo_take5_3 _).2,
          padded_props _ ?_, fun _ => padded_fixed _ ?_⟩
        · intro w hw _
          obtain ⟨it, rfl⟩ := hFmem w hw
          exact normalizeRelatedWork_keys _
        · intro w hw _
          obtain ⟨it, rfl⟩ := hFmem w hw
          exact normalizeRelatedWork_idem _
  | null =>
      rw [rwWrapStr_of_not_str o (fun s hc => by rw [hv] at hc; cases hc),
        rwNormalizeList_of_not_arr o (fun xs hc => by rw [hv] at hc; cases hc)]
      exact rwDeriveFinal_spec o (Or.inr (fun xs hc => by rw [hv] at hc; cases hc))
  | bool b =>
      rw [rwWrapStr_of_not_str o (fun s hc => by rw [hv] at hc; cases hc),
        rwNormalizeList_of_not_arr o (fun xs hc => by rw [hv] at hc; cases hc)]
      exact rwDeriveFinal_spec o (Or.inr (fun xs hc => by rw [hv] at hc; cases hc))
  | int n =>
      rw [rwWrapStr_of_not_str o (fun s hc => by rw [hv] at hc; cases hc),
        rwNormalizeList_of_not_arr o (fun xs hc => by rw [hv] at hc; cases hc)]
      exact rwDeriveFinal_spec o (Or.inr (fun xs hc => by rw [hv] at hc; cases hc))
  | float q =>
      rw [rwWrapStr_of_not_str o (fun s hc => by rw [hv] at hc; cases hc),
        rwNormalizeList_of_not_arr o (fun xs hc => by rw [hv] at hc; cases hc)]
      exact rwDeriveFinal_spec o (Or.inr (fun xs hc => by rw [hv] at hc; cases hc))
  | obj fs =>
      rw [rwWrapStr_of_not_str o (fun s hc => by rw [hv] at hc; cases hc),
        rwNormalizeList_of_not_arr o (fun xs hc => by rw [hv] at hc; cases hc)]
      exact rwDeriveFinal_spec o (Or.inr (fun xs hc => by rw [hv] at hc; cases hc))

/--
C2, amended.  For every input document, the coerced `related_works` is a list
of 3 to 5 elements, every element a mapping (non-mappings dropped, the
sentinel padded up to 3, truncation to 5); and — provided that, when the
document's `related_works` (after promotion) is a list containing a mapping,
at least one of its first five entries is a mapping — every element carries
the keys `title`, `year`, `url` and `key_contribution`.  Without the proviso
a mapping sitting beyond the fifth position of an otherwise mapping-free list
survives unnormalized (see the counterexample).
-/
theorem coerced_related_works (d : JObj) (mode : String)
    (hprov : rwProviso (pyGet (coercePromote d) "related_works") = true) :
    ∃ ws, objGet (coerceToSchemaShape d mode) "related_works" = some (.arr ws) ∧
      3 ≤ ws.length ∧ ws.length ≤ 5 ∧
      ∀ w ∈ ws, isObj w = true ∧ rwKeysOk w = true := by
  rw [objGet_coerce_related_works]
  have hsame : pyGet (coerceChecklist (coerceActionItems (coercePromote d))) "related_works"
      = pyGet (coercePromote d) "related_works" := pyGet_sections23_related_works _
  obtain ⟨ws, h1, h2, h3, h4, -⟩ :=
    rwPipeline_spec (coerceChecklist (coerceActionItems (coercePromote d)))
      (by rw [hsame]; exact hprov)
  exact ⟨ws, h1, h2, h3, h4⟩

/--
Counterexample for C2 as stated: with `related_works` =
`[1, 1, 1, 1, 1, {}]`, the first five entries contain no mapping, so section
4b leaves the field unchanged; the final fix then keeps the unnormalized empty
mapping from position 6, which lacks all four required keys.
-/
theorem coerced_related_works_counterexample :
    objGet (coerceToSchemaShape
        [("related_works", .arr [.int 1, .int 1, .int 1, .int 1, .int 1, .obj []])] "topic")
      "related_works"
      = some (.arr [.obj [], sentinelRelatedWork, sentinelRelatedWork]) ∧
    rwKeysOk (.obj []) = false := by
  constructor
  · decide
  · decide

/-- Witness for C2 at a concrete bare-string `related_works`. -/
theorem coerced_related_works_witness :
    ∃ ws, objGet (coerceToSchemaShape [("related_works", JValue.str "W")] "topic")
        "related_works" = some (.arr ws) ∧
      3 ≤ ws.length ∧ ws.length ≤ 5 ∧
      ∀ w ∈ ws, isObj w = true ∧ rwKeysOk w = true :=
  coerced_related_works [("related_works", JValue.str "W")] "topic" (by decide)

/-! ## Idempotence machinery (claim C6): action items -/

theorem coercePriority_of_valid (p : String)
    (hp : p = "high" ∨ p = "medium" ∨ p = "low") : coercePriority (.str p) = p := by
  rcases hp with hp | hp | hp <;> subst hp <;> decide

theorem isObj_normalizeActionItem (it : JObj) :
    isObj (normalizeActionItem (.obj it)) = true := rfl

theorem normalizeActionItem_pad_fixed :
    normalizeActionItem padActionItem = padActionItem := by decide

theorem normalizeActionItem_idem (x : JValue) :
    normalizeActionItem (normalizeActionItem x) = normalizeActionItem x := by
  cases x with
  | obj it =>
      have hred : normalizeActionItem (.obj it)
          = .obj (objSet (objSetdefault it "action" (.str "Define next action item"))
              "priority"
              (.str (coercePriority (pyGetD (objSetdefault it "action"
                (.str "Define next action item")) "priority" (.str "medium"))))) := rfl
      set it1 := objSetdefault it "action" (.str "Define next action item") with hit1
      set pr := coercePriority (pyGetD it1 "priority" (.str "medium")) with hpr
      set it2 := objSet it1 "priority" (.str pr) with hit2
      rw [hred]
      have hmem : objMem it2 "action" = true := by
        rw [hit2, objMem_objSet_ne _ _ _ _ (by decide)]
        exact objMem_objSetdefault_self _ _ _
      have hget : objGet it2 "priority" = some (.str pr) := by
        rw [hit2]
        exact objGet_objSet_self _ _ _
      have hred2 : normalizeActionItem (.obj it2)
          = .obj (objSet (objSetdefault it2 "action" (.str "Define next action item"))
              "priority"
              (.str (coercePriority (pyGetD (objSetdefault it2 "action"
                (.str "Define next action item")) "priority" (.str "medium"))))) := rfl
      rw [hred2, objSetdefault_of_mem _ _ _ hmem]
      have hgd : pyGetD it2 "priority" (.str "medium") = .str pr := by
        unfold pyGetD
        rw [hget]
        rfl
      rw [hgd, coercePriority_of_valid pr (by rw [hpr]; exact coercePriority_cases _),
        objSet_of_objGet_eq _ _ _ hget]
  | null => rfl
  | bool b => rfl
  | int n => rfl
  | float q => rfl
  | str s => rfl
  | arr xs => rfl

/-- A five-element normalized action-item list: the shape branch 3 produces. -/
def aiGoodList (l : List JValue) : Prop :=
  l.length = 5 ∧ ∀ x ∈ l, isObj x = true ∧ normalizeActionItem x = x

theorem aiGoodList_of_normalized (ys : List JValue) (hobj : ys.all isObj = true) :
    aiGoodList ((padTo ((ys.take 5).map normalizeActionItem) 5 padActionItem).take 5) := by
  refine ⟨length_padTo_take5 _ _, ?_⟩
  intro x hx
  rcases mem_padTo_take x _ _ _ _ hx with h1 | h1
  · obtain ⟨y, hy, rfl⟩ := List.mem_map.mp h1
    have hyo : isObj y = true := List.all_eq_true.mp hobj y (List.take_subset _ _ hy)
    obtain ⟨it, rfl⟩ := (isObj_iff y).mp hyo
    exact ⟨isObj_normalizeActionItem _, normalizeActionItem_idem _⟩
  · rw [h1]
    exact ⟨rfl, normalizeActionItem_pad_fixed⟩

theorem aiWrapStr_of_not_str (o : JObj)
    (h : ∀ s, pyGet o "action_items" ≠ .str s) : aiWrapStr o = o := by
  unfold aiWrapStr
  split
  · next s' heq => exact absurd heq (h s')
  · rfl

theorem aiStrListToDicts_of_not_arr (o : JObj)
    (h : ∀ xs, pyGet o "action_items" ≠ .arr xs) : aiStrListToDicts o = o := by
  unfold aiStrListToDicts
  split
  · next xs' heq => exact absurd heq (h xs')
  · rfl

theorem aiNormalizeDicts_of_not_arr (o : JObj)
    (h : ∀ xs, pyGet o "action_items" ≠ .arr xs) : aiNormalizeDicts o = o := by
  unfold aiNormalizeDicts
  split
  · next xs' heq => exact absurd heq (h xs')
  · rfl

theorem aiNormalizeDicts_of_allobj (o : JObj) (ys : List JValue)
    (h : pyGet o "action_items" = .arr ys) (hobj : ys.all isObj = true) :
    aiNormalizeDicts o = objSet o "action_items"
      (.arr ((padTo ((ys.take 5).map normalizeActionItem) 5 padActionItem).take 5)) := by
  unfold aiNormalizeDicts
  split
  · next ys' heq =>
      rw [h] at heq
      obtain rfl : ys = ys' := by cases heq; rfl
      rw [if_pos hobj]
  · next heq => exact absurd h (heq ys)

theorem aiNormalizeDicts_of_not_allobj (o : JObj) (ys : List JValue)
    (h : pyGet o "action_items" = .arr ys) (hobj : ys.all isObj = false) :
    aiNormalizeDicts o = o := by
  unfold aiNormalizeDicts
  split
  · next ys' heq =>
      rw [h] at heq
      obtain rfl : ys = ys' := by cases heq; rfl
      rw [if_neg (by rw [hobj]; exact Bool.false_ne_true)]
  · rfl

/-- A value section 2 leaves untouched: not a string, and if a list, neither
its string-list branch nor its dict-list branch applies. -/
def aiInert (v : JValue) : Prop :=
  (∀ s, v ≠ .str s) ∧
  (∀ xs, v = .arr xs → (xs.isEmpty || xs.all isStr) = false ∧ xs.all isObj = false)

/-- Values of `action_items` on which section 2 is the identity. -/
def aiStable (v : JValue) : Prop :=
  aiInert v ∨ ∃ l, v = .arr l ∧ aiGoodList l

theorem map_fix {α : Type} (l : List α) (f : α → α) (h : ∀ x ∈ l, f x = x) :
    l.map f = l := by
  induction l with
  | nil => rfl
  | cons x xs ih =>
      rw [List.map_cons, h x (List.mem_cons_self x xs),
        ih (fun y hy => h y (List.mem_cons_of_mem x hy))]

theorem coerceActionItems_of_stable (o : JObj)
    (h : aiStable (pyGet o "action_items")) : coerceActionItems o = o := by
  unfold coerceActionItems
  rcases h with ⟨hstr, harr⟩ | ⟨l, hl, hlen, hfix⟩
  · rw [aiWrapStr_of_not_str o hstr]
    cases hv : pyGet o "action_items" with
    | arr xs =>
        obtain ⟨hc1, hc2⟩ := harr xs hv
        rw [aiStrListToDicts_of_not_strlist o xs hv hc1]
        exact aiNormalizeDicts_of_not_allobj o xs hv hc2
    | str s => exact absurd hv (hstr s)
    | null =>
        rw [aiStrListToDicts_of_not_arr o (fun xs hc => by rw [hv] at hc; cases hc)]
        exact aiNormalizeDicts_of_not_arr o (fun xs hc => by rw [hv] at hc; cases hc)
    | bool b =>
        rw [aiStrListToDicts_of_not_arr o (fun xs hc => by rw [hv] at hc; cases hc)]
        exact aiNormalizeDicts_of_not_arr o (fun xs hc => by rw [hv] at hc; cases hc)
    | int n =>
        rw [aiStrListToDicts_of_not_arr o (fun xs hc => by rw [hv] at hc; cases hc)]
        exact aiNormalizeDicts_of_not_arr o (fun xs hc => by rw [hv] at hc; cases hc)
    | float q =>
        rw [aiStrListToDicts_of_not_arr o (fun xs hc => by rw [hv] at hc; cases hc)]
        exact aiNormalizeDicts_of_not_arr o (fun xs hc => by rw [hv] at hc; cases hc)
    | obj fs =>
        rw [aiStrListToDicts_of_not_arr o (fun xs hc => by rw [hv] at hc; cases hc)]
        exact aiNormalizeDicts_of_not_arr o (fun xs hc => by rw [hv] at hc; cases hc)
  · -- a normalized five-element dict list
    have hwrap : aiWrapStr o = o :=
      aiWrapStr_of_not_str o (fun s hc => by rw [hl] at hc; cases hc)
    rw [hwrap]
    have hobjall : l.all isObj = true := by
      rw [List.all_eq_true]
      exact fun x hx => (hfix x hx).1
    have hne : l ≠ [] := by
      intro hc
      rw [hc] at hlen
      cases hlen
    have hnotstr : (l.isEmpty || l.all isStr) = false := by
      have he : l.isEmpty = false := by
        cases l
        · exact absurd rfl hne
        · rfl
      have hs : l.all isStr = false := by
        cases l with
        | nil => exact absurd rfl hne
        | cons x xs =>
            have hxo : isObj x = true := (hfix x (List.mem_cons_self x xs)).1
            obtain ⟨it, rfl⟩ := (isObj_iff x).mp hxo
            rfl
      rw [he, hs]
      rfl
    rw [aiStrListToDicts_of_not_strlist o l hl hnotstr]
    rw [aiNormalizeDicts_of_allobj o l hl hobjall]
    have htake : l.take 5 = l := List.take_of_length_le (by omega)
    have hmap : (l.take 5).map normalizeActionItem = l := by
      rw [htake]
      exact map_fix l _ (fun x hx => (hfix x hx).2)
    have hpad : padTo l 5 padActionItem = l := by
      unfold padTo
      rw [hlen]
      simp
    rw [hmap, hpad, htake]
    exact objSet_of_objGet_eq _ _ _ (pyGet_eq_some _ _ _ hl (by intro hc; cases hc))

/-! ## Idempotence machinery (claim C6): reproduction checklist -/

theorem isObj_normalizeChecklistItem (it : JObj) :
    isObj (normalizeChecklistItem (.obj it)) = true := rfl

theorem normalizeChecklistItem_pad_fixed :
    normalizeChecklistItem padChecklistItem = padChecklistItem := by decide

theorem normalizeChecklistItem_idem (x : JValue) :
    normalizeChecklistItem (normalizeChecklistItem x) = normalizeChecklistItem x := by
  cases x with
  | obj it =>
      have hred : normalizeChecklistItem (.obj it)
          = .obj (objSetdefault (objSetdefault it "task" (.str "Add reproduction step"))
              "why" (.str "Required to reproduce results")) := rfl
      set it2 := objSetdefault (objSetdefault it "task" (.str "Add reproduction step"))
        "why" (.str "Required to reproduce results") with hit2
      rw [hred]
      have hmt : objMem it2 "task" = true := by
        rw [hit2]
        exact objMem_objSetdefault_preserve _ _ _ _ (objMem_objSetdefault_self _ _ _)
      have hmw : objMem it2 "why" = true := by
        rw [hit2]
        exact objMem_objSetdefault_self _ _ _
      have hred2 : normalizeChecklistItem (.obj it2)
          = .obj (objSetdefault (objSetdefault it2 "task" (.str "Add reproduction step"))
              "why" (.str "Required to reproduce results")) := rfl
      rw [hred2, objSetdefault_of_mem _ _ _ hmt, objSetdefault_of_mem _ _ _ hmw]
  | null => rfl
  | bool b => rfl
  | int n => rfl
  | float q => rfl
  | str s => rfl
  | arr xs => rfl

theorem length_padTo5_take10 {α : Type} (l : List α) (p : α) (h : l.length ≤ 10) :
    5 ≤ ((padTo l 5 p).take 10).length ∧ ((padTo l 5 p).take 10).length ≤ 10 := by
  rw [List.length_take]
  unfold padTo
  rw [List.length_append, List.length_replicate]
  omega

/-- A normalized checklist, as branch 3 of section 3 produces it. -/
def rcGoodList (l : List JValue) : Prop :=
  5 ≤ l.length ∧ l.length ≤ 10 ∧
  ∀ x ∈ l, isObj x = true ∧ normalizeChecklistItem x = x

theorem rcGoodList_of_normalized (ys : List JValue) (hobj : ys.all isObj = true) :
    rcGoodList ((padTo ((ys.take 10).map normalizeChecklistItem) 5 padChecklistItem).take 10)
    := by
  have hlen : ((ys.take 10).map normalizeChecklistItem).length ≤ 10 := by
    rw [List.length_map, List.length_take]
    omega
  obtain ⟨h5, h10⟩ := length_padTo5_take10 _ padChecklistItem hlen
  refine ⟨h5, h10, ?_⟩
  intro x hx
  rcases mem_padTo_take x _ _ _ _ hx with h1 | h1
  · obtain ⟨y, hy, rfl⟩ := List.mem_map.mp h1
    have hyo : isObj y = true := List.all_eq_true.mp hobj y (List.take_subset _ _ hy)
    obtain ⟨it, rfl⟩ := (isObj_iff y).mp hyo
    exact ⟨isObj_normalizeChecklistItem _, normalizeChecklistItem_idem _⟩
  · rw [h1]
    exact ⟨rfl, normalizeChecklistItem_pad_fixed⟩

theorem rcWrapStr_of_not_str (o : JObj)
    (h : ∀ s, pyGet o "reproduction_checklist" ≠ .str s) : rcWrapStr o = o := by
  unfold rcWrapStr
  split
  · next s' heq => exact absurd heq (h s')
  · rfl

theorem rcStrListToDicts_of_not_arr (o : JObj)
    (h : ∀ xs, pyGet o "reproduction_checklist" ≠ .arr xs) : rcStrListToDicts o = o := by
  unfold rcStrListToDicts
  split
  · next xs' heq => exact absurd heq (h xs')
  · rfl

theorem rcStrListToDicts_of_not_strlist (o : JObj) (ys : List JValue)
    (h : pyGet o "reproduction_checklist" = .arr ys)
    (hstr : (ys.isEmpty || ys.all isStr) = false) : rcStrListToDicts o = o := by
  unfold rcStrListToDicts
  split
  · next ys' heq =>
      rw [h] at heq
      obtain rfl : ys = ys' := by cases heq; rfl
      rw [if_neg (by rw [hstr]; exact Bool.false_ne_true)]
  · rfl

theorem rcNormalizeDicts_of_not_arr (o : JObj)
    (h : ∀ xs, pyGet o "reproduction_checklist" ≠ .arr xs) : rcNormalizeDicts o = o := by
  unfold rcNormalizeDicts
  split
  · next xs' heq => exact absurd heq (h xs')
  · rfl

theorem rcNormalizeDicts_of_allobj (o : JObj) (ys : List JValue)
    (h : pyGet o "reproduction_checklist" = .arr ys) (hobj : ys.all isObj = true) :
    rcNormalizeDicts o = objSet o "reproduction_checklist"
      (.arr ((padTo ((ys.take 10).map normalizeChecklistItem) 5 padChecklistItem).take 10))
    := by
  unfold rcNormalizeDicts
  split
  · next ys' heq =>
      rw [h] at heq
      obtain rfl : ys = ys' := by cases heq; rfl
      rw [if_pos hobj]
  · next heq => exact absurd h (heq ys)

theorem rcNormalizeDicts_of_not_allobj (o : JObj) (ys : List JValue)
    (h : pyGet o "reproduction_checklist" = .arr ys) (hobj : ys.all isObj = false) :
    rcNormalizeDicts o = o := by
  unfold rcNormalizeDicts
  split
  · next ys' heq =>
      rw [h] at heq
      obtain rfl : ys = ys' := by cases heq; rfl
      rw [if_neg (by rw [hobj]; exact Bool.false_ne_true)]
  · rfl

/-- A value section 3 leaves untouched. -/
def rcInert (v : JValue) : Prop :=
  (∀ s, v ≠ .str s) ∧
  (∀ xs, v = .arr xs → (xs.isEmpty || xs.all isStr) = false ∧ xs.all isObj = false)

/-- Values of `reproduction_checklist` on which section 3 is the identity. -/
def rcStable (v : JValue) : Prop :=
  rcInert v ∨ ∃ l, v = .arr l ∧ rcGoodList l

theorem coerceChecklist_of_stable (o : JObj)
    (h : rcStable (pyGet o "reproduction_checklist")) : coerceChecklist o = o := by
  unfold coerceChecklist
  rcases h with ⟨hstr, harr⟩ | ⟨l, hl, hlen5, hlen10, hfix⟩
  · rw [rcWrapStr_of_not_str o hstr]
    cases hv : pyGet o "reproduction_checklist" with
    | arr xs =>
        obtain ⟨hc1, hc2⟩ := harr xs hv
        rw [rcStrListToDicts_of_not_strlist o xs hv hc1]
        exact rcNormalizeDicts_of_not_allobj o xs hv hc2
    | str s => exact absurd hv (hstr s)
    | null =>
        rw [rcStrListToDicts_of_not_arr o (fun xs hc => by rw [hv] at hc; cases hc)]
        exact rcNormalizeDicts_of_not_arr o (fun xs hc => by rw [hv] at hc; cases hc)
    | bool b =>
        rw [rcStrListToDicts_of_not_arr o (fun xs hc => by rw [hv] at hc; cases hc)]
        exact rcNormalizeDicts_of_not_arr o (fun xs hc => by rw [hv] at hc; cases hc)
    | int n =>
        rw [rcStrListToDicts_of_not_arr o (fun xs hc => by rw [hv] at hc; cases hc)]
        exact rcNormalizeDicts_of_not_arr o (fun xs hc => by rw [hv] at hc; cases hc)
    | float q =>
        rw [rcStrListToDicts_of_not_arr o (fun xs hc => by rw [hv] at hc; cases hc)]
        exact rcNormalizeDicts_of_not_arr o (fun xs hc => by rw [hv] at hc; cases hc)
    | obj fs =>
        rw [rcStrListToDicts_of_not_arr o (fun xs hc => by rw [hv] at hc; cases hc)]
        exact rcNormalizeDicts_of_not_arr o (fun xs hc => by rw [hv] at hc; cases hc)
  · have hwrap : rcWrapStr o = o :=
      rcWrapStr_of_not_str o (fun s hc => by rw [hl] at hc; cases hc)
    rw [hwrap]
    have hobjall : l.all isObj = true := by
      rw [List.all_eq_true]
      exact fun x hx => (hfix x hx).1
    have hne : l ≠ [] := by
      intro hc
      rw [hc] at hlen5
      cases hlen5
    have hnotstr : (l.isEmpty || l.all isStr) = false := by
      have he : l.isEmpty = false := by
        cases l
        · exact absurd rfl hne
        · rfl
      have hs : l.all isStr = false := by
        cases l with
        | nil => exact absurd rfl hne
        | cons x xs =>
            have hxo : isObj x = true := (hfix x (List.mem_cons_self x xs)).1
            obtain ⟨it, rfl⟩ := (isObj_iff x).mp hxo
            rfl
      rw [he, hs]
      rfl
    rw [rcStrListToDicts_of_not_strlist o l hl hnotstr]
    rw [rcNormalizeDicts_of_allobj o l hl hobjall]
    have htake : l.take 10 = l := List.take_of_length_le (by omega)
    have hmap : (l.take 10).map normalizeChecklistItem = l := by
      rw [htake]
      exact map_fix l _ (fun x hx => (hfix x hx).2)
    have hpad : padTo l 5 padChecklistItem = l := by
      unfold padTo
      have : l.length - 5 + 5 = l.length := by omega
      rw [show 5 - l.length = 0 from by omega]
      simp
    rw [hmap, hpad, htake]
    exact objSet_of_objGet_eq _ _ _ (pyGet_eq_some _ _ _ hl (by intro hc; cases hc))

/-! ## Idempotence machinery (claim C6): section outputs are stable -/

theorem aiStable_inert_of_other (v : JValue) (h1 : ∀ s, v ≠ .str s)
    (h2 : ∀ xs, v ≠ .arr xs) : aiStable v :=
  Or.inl ⟨h1, fun xs hx => absurd hx (h2 xs)⟩

theorem aiStable_output (o : JObj) :
    aiStable (pyGet (coerceActionItems o) "action_items") := by
  unfold coerceActionItems
  cases hv : pyGet o "action_items"
  case str s =>
    rw [aiWrapStr_of_str o s hv]
    have hv1 : pyGet (objSet o "action_items" (.arr [.str s])) "action_items"
        = .arr [.str s] := pyGet_objSet_self _ _ _
    rw [aiStrListToDicts_of_strlist _ _ hv1 rfl]
    have hv2 : pyGet (objSet (objSet o "action_items" (.arr [.str s])) "action_items"
        (.arr ((padTo (([JValue.str s].take 5).map strToActionItem) 5 padActionItem).take 5)))
        "action_items"
        = .arr ((padTo (([JValue.str s].take 5).map strToActionItem) 5 padActionItem).take 5)
        := pyGet_objSet_self _ _ _
    rw [aiNormalizeDicts_of_allobj _ _ hv2 (strList_fixed_all_obj _), pyGet_objSet_self]
    exact Or.inr ⟨_, rfl, aiGoodList_of_normalized _ (strList_fixed_all_obj _)⟩
  case arr xs =>
    rw [aiWrapStr_of_arr o xs hv]
    by_cases hc : (xs.isEmpty || xs.all isStr) = true
    · rw [aiStrListToDicts_of_strlist o xs hv hc]
      have hv2 : pyGet (objSet o "action_items"
          (.arr ((padTo ((xs.take 5).map strToActionItem) 5 padActionItem).take 5)))
          "action_items"
          = .arr ((padTo ((xs.take 5).map strToActionItem) 5 padActionItem).take 5)
          := pyGet_objSet_self _ _ _
      rw [aiNormalizeDicts_of_allobj _ _ hv2 (strList_fixed_all_obj _), pyGet_objSet_self]
      exact Or.inr ⟨_, rfl, aiGoodList_of_normalized _ (strList_fixed_all_obj _)⟩
    · have hc' : (xs.isEmpty || xs.all isStr) = false := eq_false_of_ne_true hc
      rw [aiStrListToDicts_of_not_strlist o xs hv hc']
      by_cases hobj : xs.all isObj = true
      · rw [aiNormalizeDicts_of_allobj o xs hv hobj, pyGet_objSet_self]
        exact Or.inr ⟨_, rfl, aiGoodList_of_normalized _ hobj⟩
      · have hobj' : xs.all isObj = false := eq_false_of_ne_true hobj
        rw [aiNormalizeDicts_of_not_allobj o xs hv hobj', hv]
        refine Or.inl ⟨(fun s hc2 => by cases hc2), fun ys hy => ?_⟩
        obtain rfl : xs = ys := by cases hy; rfl
        exact ⟨hc', hobj'⟩
  all_goals {
    rw [aiWrapStr_of_not_str o (fun s hc => by rw [hv] at hc; cases hc),
      aiStrListToDicts_of_not_arr o (fun xs hc => by rw [hv] at hc; cases hc),
      aiNormalizeDicts_of_not_arr o (fun xs hc => by rw [hv] at hc; cases hc), hv]
    exact aiStable_inert_of_other _ (fun s hc => by cases hc) (fun xs hc => by cases hc)
  }

theorem rcWrapStr_of_str (o : JObj) (s : String)
    (h : pyGet o "reproduction_checklist" = .str s) :
    rcWrapStr o = objSet o "reproduction_checklist" (.arr [.str s]) := by
  unfold rcWrapStr
  split
  · next s' heq =>
      rw [h] at heq
      obtain rfl : s = s' := by cases heq; rfl
      rfl
  · next heq => exact absurd h (heq s)

theorem rcWrapStr_of_arr (o : JObj) (ys : List JValue)
    (h : pyGet o "reproduction_checklist" = .arr ys) : rcWrapStr o = o := by
  unfold rcWrapStr
  split
  · next s' heq => rw [h] at heq; cases heq
  · rfl

theorem rcStrListToDicts_of_strlist (o : JObj) (ys : List JValue)
    (h : pyGet o "reproduction_checklist" = .arr ys)
    (hstr : (ys.isEmpty || ys.all isStr) = true) :
    rcStrListToDicts o = objSet o "reproduction_checklist"
      (.arr ((padTo ((ys.take 10).map strToChecklistItem) 5 padChecklistItem).take 10)) := by
  unfold rcStrListToDicts
  split
  · next ys' heq =>
      rw [h] at heq
      obtain rfl : ys = ys' := by cases heq; rfl
      rw [if_pos hstr]
  · next heq => exact absurd h (heq ys)

theorem rcStrList_fixed_all_obj (ys : List JValue) :
    ((padTo ((ys.take 10).map strToChecklistItem) 5 padChecklistItem).take 10).all isObj
      = true := by
  rw [List.all_eq_true]
  intro x hx
  rcases mem_padTo_take x _ _ _ _ hx with h1 | h1
  · obtain ⟨y, -, rfl⟩ := List.mem_map.mp h1
    rfl
  · rw [h1]
    rfl

theorem rcStable_inert_of_other (v : JValue) (h1 : ∀ s, v ≠ .str s)
    (h2 : ∀ xs, v ≠ .arr xs) : rcStable v :=
  Or.inl ⟨h1, fun xs hx => absurd hx (h2 xs)⟩

theorem rcStable_output (o : JObj) :
    rcStable (pyGet (coerceChecklist o) "reproduction_checklist") := by
  unfold coerceChecklist
  cases hv : pyGet o "reproduction_checklist"
  case str s =>
    rw [rcWrapStr_of_str o s hv]
    have hv1 : pyGet (objSet o "reproduction_checklist" (.arr [.str s]))
        "reproduction_checklist" = .arr [.str s] := pyGet_objSet_self _ _ _
    rw [rcStrListToDicts_of_strlist _ _ hv1 rfl]
    have hv2 : pyGet (objSet (objSet o "reproduction_checklist" (.arr [.str s]))
        "reproduction_checklist"
        (.arr ((padTo (([JValue.str s].take 10).map strToChecklistItem) 5
          padChecklistItem).take 10)))
        "reproduction_checklist"
        = .arr ((padTo (([JValue.str s].take 10).map strToChecklistItem) 5
          padChecklistItem).take 10)
        := pyGet_objSet_self _ _ _
    rw [rcNormalizeDicts_of_allobj _ _ hv2 (rcStrList_fixed_all_obj _), pyGet_objSet_self]
    exact Or.inr ⟨_, rfl, rcGoodList_of_normalized _ (rcStrList_fixed_all_obj _)⟩
  case arr xs =>
    rw [rcWrapStr_of_arr o xs hv]
    by_cases hc : (xs.isEmpty || xs.all isStr) = true
    · rw [rcStrListToDicts_of_strlist o xs hv hc]
      have hv2 : pyGet (objSet o "reproduction_checklist"
          (.arr ((padTo ((xs.take 10).map strToChecklistItem) 5 padChecklistItem).take 10)))
          "reproduction_checklist"
          = .arr ((padTo ((xs.take 10).map strToChecklistItem) 5 padChecklistItem).take 10)
          := pyGet_objSet_self _ _ _
      rw [rcNormalizeDicts_of_allobj _ _ hv2 (rcStrList_fixed_all_obj _), pyGet_objSet_self]
      exact Or.inr ⟨_, rfl, rcGoodList_of_normalized _ (rcStrList_fixed_all_obj _)⟩
    · have hc' : (xs.isEmpty || xs.all isStr) = false := eq_false_of_ne_true hc
      rw [rcStrListToDicts_of_not_strlist o xs hv hc']
      by_cases hobj : xs.all isObj = true
      · rw [rcNormalizeDicts_of_allobj o xs hv hobj, pyGet_objSet_self]
        exact Or.inr ⟨_, rfl, rcGoodList_of_normalized _ hobj⟩
      · have hobj' : xs.all isObj = false := eq_false_of_ne_true hobj
        rw [rcNormalizeDicts_of_not_allobj o xs hv hobj', hv]
        refine Or.inl ⟨(fun s hc2 => by cases hc2), fun ys hy => ?_⟩
        obtain rfl : xs = ys := by cases hy; rfl
        exact ⟨hc', hobj'⟩
  all_goals {
    rw [rcWrapStr_of_not_str o (fun s hc => by rw [hv] at hc; cases hc),
      rcStrListToDicts_of_not_arr o (fun xs hc => by rw [hv] at hc; cases hc),
      rcNormalizeDicts_of_not_arr o (fun xs hc => by rw [hv] at hc; cases hc), hv]
    exact rcStable_inert_of_other _ (fun s hc => by cases hc) (fun xs hc => by cases hc)
  }

/-- Section 4 is the identity on a document whose `related_works` already holds
the normalized list its own output shape guarantees. -/
theorem coerceRelatedWorks_of_normalized (o : JObj) (ws : List JValue)
    (hget : objGet o "related_works" = some (.arr ws))
    (hlen3 : 3 ≤ ws.length) (hlen5 : ws.length ≤ 5)
    (hobj : ∀ w ∈ ws, isObj w = true)
    (hfix : ∀ w ∈ ws, normalizeRelatedWork w = w) :
    coerceRelatedWorks o = o := by
  have hv : pyGet o "related_works" = .arr ws := pyGet_eq_of_objGet _ _ _ hget
  have hne : ws ≠ [] := by
    intro hc
    rw [hc] at hlen3
    cases hlen3
  have htake : ws.take 5 = ws := List.take_of_length_le hlen5
  have hfilter : ws.filter isObj = ws := List.filter_eq_self.mpr hobj
  have hfixed : rwFixedList ws = ws := by
    unfold rwFixedList
    rw [htake, hfilter]
    exact map_fix ws _ hfix
  unfold coerceRelatedWorks
  rw [rwWrapStr_of_not_str o (fun s hc => by rw [hv] at hc; cases hc)]
  rw [rwNormalizeList_of_fixed o ws hv (by rw [hfixed]; exact hne)]
  rw [hfixed, htake, objSet_of_objGet_eq _ _ _ hget]
  rw [rwDeriveFromCandidates_skip o ws hget hne]
  rw [rwFinalFix_of_arr o ws hv, hfilter, htake]
  have hpad : padTo ws 3 sentinelRelatedWork = ws := by
    unfold padTo
    rw [show 3 - ws.length = 0 from by omega]
    simp
  rw [hpad]
  exact objSet_of_objGet_eq _ _ _ hget

theorem coerceInputConsistent_of_obj (o : JObj) (mode : String) (inp : JObj)
    (h : objGet o "input" = some (.obj inp)) : coerceInputConsistent o mode = o := by
  unfold coerceInputConsistent
  rw [h]

theorem coerceInputConsistent_of_not_obj (o : JObj) (mode : String)
    (h : ∀ inp, objGet o "input" ≠ some (.obj inp)) :
    coerceInputConsistent o mode = objSet o "input" (.obj [("mode", .str mode)]) := by
  unfold coerceInputConsistent
  split
  · next inp heq => exact absurd heq (h inp)
  · rfl

/-- Promotion of one field is the identity when its guard fails. -/
theorem promoteField_id (o : JObj) (k : String)
    (h : ∀ inp, objGet o "input" = some (.obj inp) →
      (!objMem o k && objMem inp k) = false) : promoteField o k = o := by
  unfold promoteField
  split
  · next inp heq =>
      rw [if_neg (by rw [h inp heq]; exact Bool.false_ne_true)]
  · rfl

/-- After promoting a field, the field is present whenever `input` offered it. -/
theorem objMem_promoteField_post (o : JObj) (k : String) (inp : JObj)
    (hin : objGet o "input" = some (.obj inp)) (hmem : objMem inp k = true) :
    objMem (promoteField o k) k = true := by
  unfold promoteField
  rw [hin]
  show objMem (if (!objMem o k && objMem inp k) = true
    then objSet o k (pyGet inp k) else o) k = true
  by_cases hm : objMem o k = true
  · rw [if_neg (by rw [hm]; exact Bool.false_ne_true)]
    exact hm
  · rw [if_pos (by rw [eq_false_of_ne_true hm, hmem]; rfl)]
    exact objMem_objSet_self _ _ _

/-- Promotion never removes a key. -/
theorem objMem_promoteField_mono (o : JObj) (k pk : String)
    (h : objMem o k = true) : objMem (promoteField o pk) k = true := by
  unfold promoteField
  split
  · split
    · by_cases hk : k = pk
      · rw [hk]
        exact objMem_objSet_self _ _ _
      · rw [objMem_objSet_ne _ _ _ _ hk]
        exact h
    · exact h
  · exact h

theorem objMem_aiWrapStr_mono (o : JObj) (h : objMem o "action_items" = true) :
    objMem (aiWrapStr o) "action_items" = true := by
  unfold aiWrapStr
  split
  · exact objMem_objSet_self _ _ _
  · exact h

theorem objMem_aiStrListToDicts_mono (o : JObj) (h : objMem o "action_items" = true) :
    objMem (aiStrListToDicts o) "action_items" = true := by
  unfold aiStrListToDicts
  split
  · split
    · exact objMem_objSet_self _ _ _
    · exact h
  · exact h

theorem objMem_aiNormalizeDicts_mono (o : JObj) (h : objMem o "action_items" = true) :
    objMem (aiNormalizeDicts o) "action_items" = true := by
  unfold aiNormalizeDicts
  split
  · split
    · exact objMem_objSet_self _ _ _
    · exact h
  · exact h

theorem objMem_coerceActionItems_mono (o : JObj) (h : objMem o "action_items" = true) :
    objMem (coerceActionItems o) "action_items" = true :=
  objMem_aiNormalizeDicts_mono _ (objMem_aiStrListToDicts_mono _ (objMem_aiWrapStr_mono _ h))

theorem objMem_rcWrapStr_mono (o : JObj) (h : objMem o "reproduction_checklist" = true) :
    objMem (rcWrapStr o) "reproduction_checklist" = true := by
  unfold rcWrapStr
  split
  · exact objMem_objSet_self _ _ _
  · exact h

theorem objMem_rcStrListToDicts_mono (o : JObj)
    (h : objMem o "reproduction_checklist" = true) :
    objMem (rcStrListToDicts o) "reproduction_checklist" = true := by
  unfold rcStrListToDicts
  split
  · split
    · exact objMem_objSet_self _ _ _
    · exact h
  · exact h

theorem objMem_rcNormalizeDicts_mono (o : JObj)
    (h : objMem o "reproduction_checklist" = true) :
    objMem (rcNormalizeDicts o) "reproduction_checklist" = true := by
  unfold rcNormalizeDicts
  split
  · split
    · exact objMem_objSet_self _ _ _
    · exact h
  · exact h

theorem objMem_coerceChecklist_mono (o : JObj)
    (h : objMem o "reproduction_checklist" = true) :
    objMem (coerceChecklist o) "reproduction_checklist" = true :=
  objMem_rcNormalizeDicts_mono _ (objMem_rcStrListToDicts_mono _ (objMem_rcWrapStr_mono _ h))

theorem objMem_eq_of_objGet_eq (o o' : JObj) (k : String)
    (h : objGet o k = objGet o' k) : objMem o k = objMem o' k := by
  unfold objMem
  rw [h]

theorem candsOk_congr (o o' : JObj) (h : objGet o "input" = objGet o' "input") :
    candsOk o = candsOk o' := by
  unfold candsOk
  rw [h]

/--
A document on which one full pass of `_coerce_to_schema_shape` is the
identity: `input` is a dict whose promotable fields are already reflected at
top level, each list section holds a value its own branch would leave alone,
and `related_works` holds a normalized 3–5 element list of fixpoint dicts.
-/
theorem coerce_stable (r : JObj) (mode : String) (inpr : JObj)
    (hin_r : objGet r "input" = some (.obj inpr))
    (ws : List JValue)
    (hget_r : objGet r "related_works" = some (.arr ws))
    (hl3 : 3 ≤ ws.length) (hl5 : ws.length ≤ 5)
    (hobj : ∀ w ∈ ws, isObj w = true)
    (hfix : ∀ w ∈ ws, normalizeRelatedWork w = w)
    (hai : aiStable (pyGet r "action_items"))
    (hrc : rcStable (pyGet r "reproduction_checklist"))
    (hpai : objMem inpr "action_items" = true → objMem r "action_items" = true)
    (hprc : objMem inpr "reproduction_checklist" = true →
      objMem r "reproduction_checklist" = true) :
    coerceToSchemaShape r mode = r := by
  have hmrw : objMem r "related_works" = true := objMem_of_objGet _ _ _ hget_r
  have hrc' : promoteField r "reproduction_checklist" = r := by
    apply promoteField_id
    intro inp heq
    rw [hin_r] at heq
    obtain rfl : inpr = inp := by cases heq; rfl
    by_cases hm : objMem inpr "reproduction_checklist" = true
    · rw [hprc hm]
      rfl
    · rw [eq_false_of_ne_true hm, Bool.and_false]
  have hai' : promoteField r "action_items" = r := by
    apply promoteField_id
    intro inp heq
    rw [hin_r] at heq
    obtain rfl : inpr = inp := by cases heq; rfl
    by_cases hm : objMem inpr "action_items" = true
    · rw [hpai hm]
      rfl
    · rw [eq_false_of_ne_true hm, Bool.and_false]
  have hrw' : promoteField r "related_works" = r := by
    apply promoteField_id
    intro inp heq
    rw [hmrw]
    rfl
  have h1 : coercePromote r = r := by
    unfold coercePromote
    rw [hrc', hai', hrw']
  have h2 : coerceActionItems r = r := coerceActionItems_of_stable r hai
  have h3 : coerceChecklist r = r := coerceChecklist_of_stable r hrc
  have h4 : coerceRelatedWorks r = r :=
    coerceRelatedWorks_of_normalized r ws hget_r hl3 hl5 hobj hfix
  have h5 : coerceInputConsistent r mode = r :=
    coerceInputConsistent_of_obj r mode inpr hin_r
  show coerceInputConsistent
    (coerceRelatedWorks (coerceChecklist (coerceActionItems (coercePromote r)))) mode = r
  rw [h1, h2, h3, h4, h5]

/--
**C6.** Coercion is idempotent — under two provisos the source code does not
enforce in general: the (promoted) `related_works` list must not consist of
non-dicts in its first five positions while hiding a dict beyond position
five (such a survivor is left unnormalized by the first pass and re-coerced
differently by the second), and every dict in `input.candidate_papers` must
carry a non-negative parsed year (the derivation path omits the `y >= 0`
guard, and a negative derived year is bumped to 0 only by a second pass).
Under these provisos, `coerce(coerce(d, m), m) == coerce(d, m)`.
-/
theorem coercion_idempotent (d : JObj) (mode : String)
    (hprov : rwProviso (pyGet (coercePromote d) "related_works") = true)
    (hcands : candsOk d = true) :
    coerceToSchemaShape (coerceToSchemaShape d mode) mode = coerceToSchemaShape d mode := by
  have hin4 : objGet (coerceRelatedWorks (coerceChecklist (coerceActionItems
      (coercePromote d)))) "input" = objGet d "input" := by
    rw [objGet_coerceRelatedWorks_ne _ _ (by decide)]
    exact objGet_sections123_input d
  have hframe_ai : objGet (coerceToSchemaShape d mode) "action_items"
      = objGet (coerceActionItems (coercePromote d)) "action_items" := by
    show objGet (coerceInputConsistent (coerceRelatedWorks (coerceChecklist
      (coerceActionItems (coercePromote d)))) mode) "action_items" = _
    rw [objGet_coerceInputConsistent_ne _ _ _ (by decide),
      objGet_coerceRelatedWorks_ne _ _ (by decide),
      objGet_coerceChecklist_ne _ _ (by decide)]
  have hframe_rc : objGet (coerceToSchemaShape d mode) "reproduction_checklist"
      = objGet (coerceChecklist (coerceActionItems (coercePromote d)))
        "reproduction_checklist" := by
    show objGet (coerceInputConsistent (coerceRelatedWorks (coerceChecklist
      (coerceActionItems (coercePromote d)))) mode) "reproduction_checklist" = _
    rw [objGet_coerceInputConsistent_ne _ _ _ (by decide),
      objGet_coerceRelatedWorks_ne _ _ (by decide)]
  -- section 4 of the first pass, through `rwPipeline_spec`
  have hprov3 : rwProviso (pyGet (coerceChecklist (coerceActionItems
      (coercePromote d))) "related_works") = true := by
    rw [pyGet_sections23_related_works]
    exact hprov
  obtain ⟨ws, hget4, hl3, hl5, hkeys, hfixc⟩ :=
    rwPipeline_spec (coerceChecklist (coerceActionItems (coercePromote d))) hprov3
  have hcands3 : candsOk (coerceChecklist (coerceActionItems (coercePromote d))) = true := by
    rw [candsOk_congr _ d (objGet_sections123_input d)]
    exact hcands
  have hget_r : objGet (coerceToSchemaShape d mode) "related_works" = some (.arr ws) := by
    show objGet (coerceInputConsistent (coerceRelatedWorks (coerceChecklist
      (coerceActionItems (coercePromote d)))) mode) "related_works" = _
    rw [objGet_coerceInputConsistent_ne _ _ _ (by decide)]
    exact hget4
  -- sections 2 and 3 of the first pass leave stable values
  have hai : aiStable (pyGet (coerceToSchemaShape d mode) "action_items") := by
    have hpg : pyGet (coerceToSchemaShape d mode) "action_items"
        = pyGet (coerceActionItems (coercePromote d)) "action_items" := by
      unfold pyGet
      rw [hframe_ai]
    rw [hpg]
    exact aiStable_output _
  have hrc : rcStable (pyGet (coerceToSchemaShape d mode) "reproduction_checklist") := by
    have hpg : pyGet (coerceToSchemaShape d mode) "reproduction_checklist"
        = pyGet (coerceChecklist (coerceActionItems (coercePromote d)))
          "reproduction_checklist" := by
      unfold pyGet
      rw [hframe_rc]
    rw [hpg]
    exact rcStable_output _
  -- the `input` dict of the coerced document, and promotion coverage
  obtain ⟨inpr, hin_r, hpai, hprc⟩ :
      ∃ inpr, objGet (coerceToSchemaShape d mode) "input" = some (.obj inpr) ∧
        (objMem inpr "action_items" = true →
          objMem (coerceToSchemaShape d mode) "action_items" = true) ∧
        (objMem inpr "reproduction_checklist" = true →
          objMem (coerceToSchemaShape d mode) "reproduction_checklist" = true) := by
    by_cases hex : ∃ inp, objGet d "input" = some (.obj inp)
    · obtain ⟨inpd, hm⟩ := hex
      have hc5 : coerceToSchemaShape d mode
          = coerceRelatedWorks (coerceChecklist (coerceActionItems (coercePromote d))) := by
        show coerceInputConsistent (coerceRelatedWorks (coerceChecklist
          (coerceActionItems (coercePromote d)))) mode = _
        exact coerceInputConsistent_of_obj _ _ inpd (by rw [hin4]; exact hm)
      refine ⟨inpd, ?_, ?_, ?_⟩
      · rw [hc5, hin4]
        exact hm
      · intro hm2
        have ha1 : objMem (coercePromote d) "action_items" = true := by
          unfold coercePromote
          apply objMem_promoteField_mono
          exact objMem_promoteField_post _ _ inpd
            (by rw [objGet_promoteField_ne _ _ _ (by decide)]; exact hm) hm2
        have ha2 : objMem (coerceActionItems (coercePromote d)) "action_items" = true :=
          objMem_coerceActionItems_mono _ ha1
        rw [objMem_eq_of_objGet_eq _ _ _ hframe_ai]
        exact ha2
      · intro hm2
        have hr1 : objMem (promoteField d "reproduction_checklist")
            "reproduction_checklist" = true :=
          objMem_promoteField_post d _ inpd hm hm2
        have hr2 : objMem (coercePromote d) "reproduction_checklist" = true := by
          unfold coercePromote
          exact objMem_promoteField_mono _ _ _ (objMem_promoteField_mono _ _ _ hr1)
        have hr3 : objMem (coerceActionItems (coercePromote d))
            "reproduction_checklist" = true := by
          rw [objMem_eq_of_objGet_eq _ _ _ (objGet_coerceActionItems_ne _ _ (by decide))]
          exact hr2
        rw [objMem_eq_of_objGet_eq _ _ _ hframe_rc]
        exact objMem_coerceChecklist_mono _ hr3
    · have h' : ∀ inp, objGet d "input" ≠ some (.obj inp) := fun inp hc => hex ⟨inp, hc⟩
      have hc5 : coerceToSchemaShape d mode
          = objSet (coerceRelatedWorks (coerceChecklist (coerceActionItems
              (coercePromote d)))) "input" (.obj [("mode", .str mode)]) := by
        show coerceInputConsistent (coerceRelatedWorks (coerceChecklist
          (coerceActionItems (coercePromote d)))) mode = _
        exact coerceInputConsistent_of_not_obj _ _
          (fun inp hc => h' inp (by rw [hin4] at hc; exact hc))
      refine ⟨[("mode", .str mode)], ?_, ?_, ?_⟩
      · rw [hc5]
        exact objGet_objSet_self _ _ _
      · intro hm2
        simp [objMem, objGet] at hm2
      · intro hm2
        simp [objMem, objGet] at hm2
  exact coerce_stable (coerceToSchemaShape d mode) mode inpr hin_r ws hget_r hl3 hl5
    (fun w hw => (hkeys w hw).1) (hfixc hcands3) hai hrc hpai hprc

/--
**C6, counterexample to the unqualified claim.**  On a document whose
`related_works` list has only non-dicts in its first five positions but a
dict later, the first coercion pass keeps the dict unnormalized (section 4's
no-dict-found branch leaves the field as is, and the final fix then keeps the
bare dict), so a second pass produces a different document.
-/
theorem coercion_idempotent_counterexample :
    coerceToSchemaShape (coerceToSchemaShape
        [("related_works", JValue.arr
          [.int 1, .int 1, .int 1, .int 1, .int 1, .obj []])] "topic") "topic"
      ≠ coerceToSchemaShape
        [("related_works", JValue.arr
          [.int 1, .int 1, .int 1, .int 1, .int 1, .obj []])] "topic" := by
  decide

/-- **C6, witness.**  The provisos hold for the empty document, and coercion
is idempotent on it. -/
theorem coercion_idempotent_witness :
    rwProviso (pyGet (coercePromote []) "related_works") = true ∧
    candsOk [] = true ∧
    coerceToSchemaShape (coerceToSchemaShape [] "topic") "topic"
      = coerceToSchemaShape [] "topic" :=
  ⟨by decide, by decide, coercion_idempotent [] "topic" (by decide) (by decide)⟩

end ResearchAssistant
